import Mathlib

/-!
Verification of the time-signal longwave transmitter (DCF77/JJY/MSF/WWVB).

Shallow embedding of the C sources:
* `time-services.c` — minute-payload encoder and per-second modulation,
* `clock-control.c` — hardware clock synthesizer selection logic,
* `time-signal.c`   — transmission scheduler loop and schedule parsing.

Embedding conventions: C `double` arithmetic is embedded as exact rational
arithmetic (`ℚ`); C `int` / `time_t` as `ℤ` (with C truncating division
`Int.tdiv` / `Int.tmod`); C `uint64_t` bit strings as `ℕ` with bitwise
operations.  `struct tm` is the record `Tm`; the libc conversions
`localtime_r` / `gmtime_r` are environment parameters of type `ℤ → Tm`.
-/

namespace TimeSignal

/-- The `enum TimeService` of `time-services.h`: the four recognized
time services.  An unrecognized C enum value (reaching the `default`
branch of the switches) is modelled as `none` at the use sites. -/
inductive TimeService where
  | DCF77
  | JJY
  | MSF
  | WWVB
deriving DecidableEq, BEq

/-- The fields of libc `struct tm` used by `time-services.c` (C `int`s). -/
structure Tm where
  tm_min : Int
  tm_hour : Int
  tm_mday : Int
  tm_mon : Int
  tm_year : Int
  tm_wday : Int
  tm_yday : Int
  tm_isdst : Int
deriving DecidableEq

/-- `to_bcd` from `time-services.c`:
`(((n / 100) % 10) << 8) | (((n / 10) % 10) << 4) | (n % 10)`.
C `/` and `%` on `int` truncate toward zero, hence `tdiv` / `tmod`. -/
def to_bcd (n : Int) : Nat :=
  (((n.tdiv 100).tmod 10).toNat <<< 8) |||
  (((n.tdiv 10).tmod 10).toNat <<< 4) |||
  (n.tmod 10).toNat

/-- `to_padded_bcd` from `time-services.c`: BCD with a zero bit between
the digits (5 bits per digit). -/
def to_padded_bcd (n : Int) : Nat :=
  (((n.tdiv 100).tmod 10).toNat <<< 10) |||
  (((n.tdiv 10).tmod 10).toNat <<< 5) |||
  (n.tmod 10).toNat

/-- `even_parity` from `time-services.c`: number of set bits of `data` in
positions `startBit..endBit` (inclusive), reduced mod 2 (`count & 0x01`). -/
def even_parity (data : Nat) (startBit endBit : Nat) : Nat :=
  ((List.range' startBit (endBit + 1 - startBit)).countP (fun i => data.testBit i)) % 2

/-- `odd_parity` from `time-services.c`: `even_parity(...) == 0`. -/
def odd_parity (data : Nat) (startBit endBit : Nat) : Nat :=
  if even_parity data startBit endBit = 0 then 1 else 0

/-- `is_leap_year` from `time-services.c`:
`(year % 4 == 0) && (year % 100 != 0 || year % 400 == 0)`. -/
def is_leap_year (year : Int) : Nat :=
  if year.tmod 4 = 0 ∧ (year.tmod 100 ≠ 0 ∨ year.tmod 400 = 0) then 1 else 0

/-- Boolean-to-bit conversion `(cond) ? 1 : 0` used for the DST flags. -/
def cbit (b : Prop) [Decidable b] : Nat :=
  if b then 1 else 0

/-- The field bits of the `case DCF77:` body of `prepare_minute` (the
state of `timeBits` after the nine field `|=` lines, before the parity
lines; bits built from the broken-down local time of the upcoming
minute). -/
def dcf77_fields (b : Tm) : Nat :=
  (cbit (b.tm_isdst > 0) <<< 17) |||
  (cbit (¬ b.tm_isdst > 0) <<< 18) |||
  (1 <<< 20) |||
  (to_bcd b.tm_min <<< 21) |||
  (to_bcd b.tm_hour <<< 29) |||
  (to_bcd b.tm_mday <<< 36) |||
  (to_bcd (if b.tm_wday ≠ 0 then b.tm_wday else 7) <<< 42) |||
  (to_bcd (b.tm_mon + 1) <<< 45) |||
  (to_bcd (b.tm_year.tmod 100) <<< 50)

/-- DCF77 `timeBits` after `|= even_parity(timeBits, 21, 27) << 28`. -/
def dcf77_with_p1 (b : Tm) : Nat :=
  dcf77_fields b ||| (even_parity (dcf77_fields b) 21 27 <<< 28)

/-- DCF77 `timeBits` after `|= even_parity(timeBits, 29, 34) << 35`. -/
def dcf77_with_p2 (b : Tm) : Nat :=
  dcf77_with_p1 b ||| (even_parity (dcf77_with_p1 b) 29 34 <<< 35)

/-- The `case DCF77:` body of `prepare_minute`: the field bits plus the
three even-parity bits, OR'd in sequentially as in the source. -/
def dcf77_time_bits (b : Tm) : Nat :=
  dcf77_with_p2 b ||| (even_parity (dcf77_with_p2 b) 36 57 <<< 58)

/-- The field bits of the `case JJY:` body of `prepare_minute` (before
the parity `|=` lines). -/
def jjy_fields (b : Tm) : Nat :=
  (to_padded_bcd b.tm_min <<< (59 - 8)) |||
  (to_padded_bcd b.tm_hour <<< (59 - 18)) |||
  (to_padded_bcd (b.tm_yday + 1) <<< (59 - 33)) |||
  (to_bcd (b.tm_year.tmod 100) <<< (59 - 48)) |||
  (to_bcd b.tm_wday <<< (59 - 52))

/-- JJY `timeBits` after the PA1 line
`|= even_parity(timeBits, 59-18, 59-12) << (59-36)`. -/
def jjy_with_pa1 (b : Tm) : Nat :=
  jjy_fields b ||| (even_parity (jjy_fields b) (59 - 18) (59 - 12) <<< (59 - 36))

/-- The `case JJY:` body of `prepare_minute`: fields plus PA1 plus the
PA2 line `|= even_parity(timeBits, 59-8, 59-1) << (59-37)`. -/
def jjy_time_bits (b : Tm) : Nat :=
  jjy_with_pa1 b ||| (even_parity (jjy_with_pa1 b) (59 - 8) (59 - 1) <<< (59 - 37))

/-- The MSF "A" word of `prepare_minute` (`aBits`). -/
def msf_a_bits (b : Tm) : Nat :=
  (to_bcd (b.tm_year.tmod 100) <<< (59 - 24)) |||
  (to_bcd (b.tm_mon + 1) <<< (59 - 29)) |||
  (to_bcd b.tm_mday <<< (59 - 35)) |||
  (to_bcd b.tm_wday <<< (59 - 38)) |||
  (to_bcd b.tm_hour <<< (59 - 44)) |||
  (to_bcd b.tm_min <<< (59 - 51))

/-- The MSF "B" word of `prepare_minute` (`bBits`): four odd-parity bits
over sub-ranges of the A word, and the DST flag. -/
def msf_b_bits (b : Tm) : Nat :=
  (odd_parity (msf_a_bits b) (59 - 24) (59 - 17) <<< (59 - 54)) |||
  (odd_parity (msf_a_bits b) (59 - 35) (59 - 25) <<< (59 - 55)) |||
  (odd_parity (msf_a_bits b) (59 - 38) (59 - 36) <<< (59 - 56)) |||
  (odd_parity (msf_a_bits b) (59 - 51) (59 - 39) <<< (59 - 57)) |||
  (cbit (b.tm_isdst > 0) <<< (59 - 58))

/-- The `case MSF:` body of `prepare_minute`: `timeBits = aBits | bBits`. -/
def msf_time_bits (b : Tm) : Nat :=
  msf_a_bits b ||| msf_b_bits b

/-- The `case WWVB:` body of `prepare_minute`: calendar fields from the
UTC breakdown `g` (`gmtime_r`), DST flags from the local breakdowns of
today (`l`) and tomorrow (`tm`). -/
def wwvb_time_bits (g l tm : Tm) : Nat :=
  (to_padded_bcd g.tm_min <<< (59 - 8)) |||
  (to_padded_bcd g.tm_hour <<< (59 - 18)) |||
  (to_padded_bcd (g.tm_yday + 1) <<< (59 - 33)) |||
  (to_padded_bcd (g.tm_year.tmod 100) <<< (59 - 53)) |||
  (is_leap_year (g.tm_year + 1900) <<< (59 - 55)) |||
  (cbit (tm.tm_isdst > 0) <<< (59 - 57)) |||
  (cbit (l.tm_isdst > 0) <<< (59 - 58))

/-- `prepare_minute` from `time-services.c`.  `localtime` and `gmtime_f`
model `localtime_r` and `gmtime_r`; `currentTime` is the `time_t`
argument.  DCF77 and MSF shift the instant forward by 60 s (upcoming
minute); WWVB also reads the local breakdowns of `currentTime` and
`currentTime + 86400` for its DST flags.  The `default` case
(unrecognized enum value, modelled by `none`) returns `(uint64_t)-1`. -/
def prepare_minute (service : Option TimeService) (localtime gmtime_f : Int → Tm)
    (currentTime : Int) : Nat :=
  match service with
  | some .DCF77 => dcf77_time_bits (localtime (currentTime + 60))
  | some .JJY => jjy_time_bits (localtime currentTime)
  | some .MSF => msf_time_bits (localtime (currentTime + 60))
  | some .WWVB =>
      wwvb_time_bits (gmtime_f currentTime) (localtime currentTime)
        (localtime (currentTime + 86400))
  | none => 2 ^ 64 - 1

/-- `get_modulation_for_second` from `time-services.c`.  `sec` is the
loop counter of the scheduler (0..59); `timeBits` the minute payload.
`bit = timeBits & (1LL << k)` converted to `bool` is `Nat.testBit`. -/
def get_modulation_for_second (service : Option TimeService) (timeBits : Nat)
    (sec : Nat) : Int :=
  match service with
  | some .DCF77 =>
      if sec ≥ 59 then 0
      else if timeBits.testBit sec then 200 else 100
  | some .JJY =>
      if sec = 0 ∨ sec % 10 = 9 ∨ sec > 59 then 200
      else if timeBits.testBit (59 - sec) then 500 else 800
  | some .MSF =>
      if sec = 0 ∨ sec > 59 then 500
      else 100 + (if timeBits.testBit (59 - sec) then 1 else 0) * 100 +
        (if sec > 52 ∧ sec < 59 then 1 else 0) * 100
  | some .WWVB =>
      if sec = 0 ∨ sec % 10 = 9 ∨ sec > 59 then 800
      else if timeBits.testBit (59 - sec) then 500 else 200
  | none => -1

/-- The gate manipulations of one iteration of the per-second loop of
`thread_time_signal` in `time-signal.c`: the absolute deadline waited on
before touching the gate, the gate polarity written at the start of the
second, the absolute mid-second deadline (`tv_nsec = modulation * 1e6`),
and the polarity written after it. -/
structure SecondStep where
  startWaitSec : Int
  startWaitNsec : Int
  gateAtSecondStart : Bool
  modulationWaitSec : Int
  modulationWaitNsec : Int
  gateAfterModulation : Bool
deriving DecidableEq

/-- The body of `for (int second = 0; second < 60; second++)` in
`thread_time_signal`, restricted to its waits and gate writes. -/
def thread_second_step (timeService : TimeService) (minuteStart : Int)
    (second : Nat) (modulation : Int) : SecondStep :=
  { startWaitSec := minuteStart + second
    startWaitNsec := 0
    gateAtSecondStart := timeService == .JJY
    modulationWaitSec := minuteStart + second
    modulationWaitNsec := modulation * 1000000
    gateAfterModulation := !(timeService == .JJY) }

/-- The `gmtime_r` breakdown of the civil instant
2024-06-15 12:00:00 UTC (a Saturday, day-of-year index 166,
`tm_year = 2024 - 1900`). -/
def wwvbScenarioUtc : Tm :=
  ⟨0, 12, 15, 5, 124, 6, 166, 0⟩

/-- The WWVB payload for 2024-06-15 12:00:00 UTC
(epoch second 1718452800), with the host timezone set to UTC so the
local breakdowns coincide with the UTC one. -/
def wwvbScenarioBits : Nat :=
  prepare_minute (some .WWVB) (fun _ => wwvbScenarioUtc) (fun _ => wwvbScenarioUtc) 1718452800

/-- The POSIX-guaranteed ranges of the `struct tm` fields that
`localtime_r` / `gmtime_r` produce (used as hypotheses for invariants
about payloads built from such breakdowns). -/
def TmRangeOK (b : Tm) : Prop :=
  0 ≤ b.tm_min ∧ b.tm_min ≤ 59 ∧ 0 ≤ b.tm_hour ∧ b.tm_hour ≤ 23 ∧
  1 ≤ b.tm_mday ∧ b.tm_mday ≤ 31 ∧ 0 ≤ b.tm_mon ∧ b.tm_mon ≤ 11 ∧
  0 ≤ b.tm_wday ∧ b.tm_wday ≤ 6 ∧ 0 ≤ b.tm_yday ∧ b.tm_yday ≤ 365

instance (b : Tm) : Decidable (TmRangeOK b) := by
  unfold TmRangeOK
  infer_instance

/-- C `(int)` conversion of a `double` (here: of an exact rational):
truncation toward zero. -/
def ctrunc (q : ℚ) : ℤ :=
  if 0 ≤ q then ⌊q⌋ else ⌈q⌉

/-- libc `lround`: round to nearest, halfway cases away from zero. -/
def lround_q (q : ℚ) : ℤ :=
  if 0 ≤ q then ⌊q + 1 / 2⌋ else -⌊-q + 1 / 2⌋

/-- One entry of the `_clockSources` table of `clock-control.c`
(`CLOCK_SOURCE`), with `clockFrequency` as refreshed by
`update_clock_source_frequencies` before selection. -/
structure CLOCK_SOURCE where
  clockSource : Nat
  clockString : String
  enableForUse : Bool
  clockFrequency : ℚ
deriving DecidableEq

/-- The static `_clockSources[]` array of `clock-control.c`, with the
five live frequencies (read from `/sys/kernel/debug/clk/*/clk_rate`;
`0` models a failed read) as parameters. -/
def clock_sources (oscFreq pllaFreq pllcFreq plldFreq pllhFreq : ℚ) : List CLOCK_SOURCE :=
  [⟨1, "osc", true, oscFreq⟩,
   ⟨4, "plla_per", false, pllaFreq⟩,
   ⟨5, "pllc_per", false, pllcFreq⟩,
   ⟨6, "plld_per", true, plldFreq⟩,
   ⟨7, "pllh_aux", true, pllhFreq⟩]

/-- `division = _clockSources[i].clockFrequency / requestedFrequency`
in `start_clock`. -/
def division (requestedFrequency : ℚ) (s : CLOCK_SOURCE) : ℚ :=
  s.clockFrequency / requestedFrequency

/-- `int testDivI = (int)division;` in `start_clock`. -/
def testDivI (requestedFrequency : ℚ) (s : CLOCK_SOURCE) : ℤ :=
  ctrunc (division requestedFrequency s)

/-- `int testDivF = (division - testDivI) * 1024;` in `start_clock`
(the C `double`-to-`int` conversion truncates). -/
def testDivF (requestedFrequency : ℚ) (s : CLOCK_SOURCE) : ℤ :=
  ctrunc ((division requestedFrequency s - (testDivI requestedFrequency s : ℚ)) * 1024)

/-- `double resultFreq = clockFrequency / (testDivI + testDivF / 1024.0);`. -/
def resultFreq (requestedFrequency : ℚ) (s : CLOCK_SOURCE) : ℚ :=
  s.clockFrequency / ((testDivI requestedFrequency s : ℚ) + (testDivF requestedFrequency s : ℚ) / 1024)

/-- `double error = fabsl(requestedFrequency - resultFreq);`. -/
def candError (requestedFrequency : ℚ) (s : CLOCK_SOURCE) : ℚ :=
  |requestedFrequency - resultFreq requestedFrequency s|

/-- A candidate is skipped when `division < 2 || division > 4095`;
it is suitable otherwise. -/
def src_suitable (requestedFrequency : ℚ) (s : CLOCK_SOURCE) : Prop :=
  ¬ (division requestedFrequency s < 2 ∨ division requestedFrequency s > 4095)

instance (f : ℚ) (s : CLOCK_SOURCE) : Decidable (src_suitable f s) := by
  unfold src_suitable
  infer_instance

/-- The running best of the selection loop of `start_clock`
(`bestClockSourceIndex` / `bestError` / `bestSourceFreq` / `divI` /
`divF`; the chosen source is kept instead of its index). -/
structure Chosen where
  src : CLOCK_SOURCE
  divI : ℤ
  divF : ℤ
  bestError : ℚ
deriving DecidableEq

/-- One iteration of the selection loop of `start_clock`.  The C
initialization `bestClockSourceIndex = -1, bestError = DBL_MAX` is
modelled by `none`: the first suitable candidate always replaces it
(`error > DBL_MAX` and `error == DBL_MAX` are false for the finite
errors computed here). -/
def consider (requestedFrequency : ℚ) (best : Option Chosen) (s : CLOCK_SOURCE) : Option Chosen :=
  if division requestedFrequency s < 2 ∨ division requestedFrequency s > 4095 then best
  else
    match best with
    | some b =>
        if candError requestedFrequency s > b.bestError ∨
            (candError requestedFrequency s = b.bestError ∧
              s.clockFrequency ≤ b.src.clockFrequency) then
          some b
        else
          some ⟨s, testDivI requestedFrequency s, testDivF requestedFrequency s,
            candError requestedFrequency s⟩
    | none =>
        some ⟨s, testDivI requestedFrequency s, testDivF requestedFrequency s,
          candError requestedFrequency s⟩

/-- The hardware side effects of `start_clock` after a successful
selection: `stop_clock()`, the divisor-register write, the
control-register write (`MASH`, source id), and setting the enable bit. -/
inductive RegAction where
  | stopClock
  | writeDivRegister (divI divF : ℤ)
  | writeControlRegister (mash src : Nat)
  | setEnableBit
deriving DecidableEq

/-- Return value plus hardware actions of `start_clock`. -/
structure StartClockResult where
  returnValue : ℚ
  registerActions : List RegAction
deriving DecidableEq

/-- `start_clock` from `clock-control.c`: run the selection loop over
the candidate table; on failure return `-1.0` having touched no
register; on success program the divisor and control registers and
return the achieved frequency. -/
def start_clock (sources : List CLOCK_SOURCE) (requestedFrequency : ℚ) : StartClockResult :=
  match sources.foldl (consider requestedFrequency) none with
  | none => ⟨-1, []⟩
  | some b =>
      ⟨b.src.clockFrequency / ((b.divI : ℚ) + (b.divF : ℚ) / 1024),
       [RegAction.stopClock, RegAction.writeDivRegister b.divI b.divF,
        RegAction.writeControlRegister 1 b.src.clockSource, RegAction.setEnableBit]⟩

/-- Numeric value of a list of decimal digit characters. -/
def digitsToNat (ds : List Char) : Nat :=
  ds.foldl (fun acc c => acc * 10 + (c.toNat - '0'.toNat)) 0

/-- Value of a list of decimal digit characters read as a fraction
(the part after the decimal point). -/
def fracToRat (ds : List Char) : ℚ :=
  ds.foldr (fun c acc => (((c.toNat - '0'.toNat : ℕ) : ℚ) + acc) / 10) 0

/-- Modelled from the spec and the C library contract of
`sscanf(s, "%lf", &x)` as used by `get_periodic_schedule`: skip leading
whitespace, optional sign, decimal digits with an optional fractional
part; fails when no digits are present; trailing characters are left
unconsumed (`sscanf` still reports success).  The exotic `strtod` forms
(exponents, hex, inf/nan) are not modelled. -/
def sscanf_lf (s : String) : Option ℚ :=
  let cs := s.toList.dropWhile (fun c => c.isWhitespace)
  let sign : ℚ := match cs with
    | '-' :: _ => -1
    | _ => 1
  let cs1 : List Char := match cs with
    | '-' :: r => r
    | '+' :: r => r
    | _ => cs
  let intDigits := cs1.takeWhile (fun c => c.isDigit)
  let rest := cs1.dropWhile (fun c => c.isDigit)
  match rest with
  | '.' :: r =>
      let fracDigits := r.takeWhile (fun c => c.isDigit)
      if intDigits.isEmpty ∧ fracDigits.isEmpty then none
      else some (sign * ((digitsToNat intDigits : ℚ) + fracToRat fracDigits))
  | _ =>
      if intDigits.isEmpty then none
      else some (sign * (digitsToNat intDigits : ℚ))

/-- Modelled from the spec and the C library contract of
`sscanf(s, "%" SCNu16, &x)`: skip leading whitespace, optional sign,
decimal digits, value reduced into `uint16_t` range. -/
def sscanf_u16 (s : String) : Option Nat :=
  let cs := s.toList.dropWhile (fun c => c.isWhitespace)
  let neg : Bool := match cs with
    | '-' :: _ => true
    | _ => false
  let cs1 : List Char := match cs with
    | '-' :: r => r
    | '+' :: r => r
    | _ => cs
  let ds := cs1.takeWhile (fun c => c.isDigit)
  if ds.isEmpty then none
  else
    let v := digitsToNat ds % 65536
    some (if neg then (65536 - v) % 65536 else v)

/-- Split a character list at every occurrence of `delim` (keeping empty
groups). -/
def split_on_char (delim : Char) (cs : List Char) : List (List Char) :=
  cs.foldr
    (fun c acc =>
      match acc with
      | [] => [[c]]
      | g :: rest => if c = delim then [] :: g :: rest else (c :: g) :: rest)
    [[]]

/-- Modelled from the spec and the C library contract of `strtok_r` with
a single-character delimiter set, as used by `get_periodic_schedule`:
the maximal nonempty runs of non-delimiter characters, in order. -/
def c_strtok (delim : Char) (s : String) : List String :=
  ((split_on_char delim s.toList).filter (fun t => t ≠ [])).map (fun t => String.mk t)

/-- The inner marking loop of `get_periodic_schedule`:
`for (i = 0; i < runMinutes; i++) buffSched[(startMinute + i) % 1440] = true;`. -/
def mark_minutes (startMinute runMinutes : Nat) (mask : Nat → Bool) : Nat → Bool :=
  (List.range runMinutes).foldl
    (fun mk i => fun m => if m = (startMinute + i) % 1440 then true else mk m) mask

/-- The body of the entry loop of `get_periodic_schedule`, applied to the
`:`-separated fields of one schedule entry: validate the start hour and
the run length, then mark the covered minutes; on any invalid field the
entry is skipped (`continue`) and the mask is unchanged. -/
def apply_schedule_fields (mask : Nat → Bool) (fields : List String) : Nat → Bool :=
  match fields with
  | [] => mask
  | startHourString :: rest =>
      match sscanf_lf startHourString with
      | none => mask
      | some startHour =>
          if ¬ (0 ≤ startHour ∧ startHour < 24) then mask
          else
            match rest with
            | [] => mask
            | runMinutesString :: _ =>
                match sscanf_u16 runMinutesString with
                | none => mask
                | some runMinutes =>
                    if runMinutes > 1440 then mask
                    else if (lround_q (startHour * 60)).toNat % 65536 ≥ 1440 then mask
                    else mark_minutes ((lround_q (startHour * 60)).toNat % 65536) runMinutes mask

/-- One iteration of the outer `strtok_r` loop of
`get_periodic_schedule`: split the entry at `:` and process its fields. -/
def apply_schedule_entry (mask : Nat → Bool) (entry : String) : Nat → Bool :=
  apply_schedule_fields mask (c_strtok ':' entry)

/-- `get_periodic_schedule` from `time-signal.c`: clear the whole mask
(`memset(buffSched, 0, buffLen)`), then OR in the coverage of every
valid `START:LEN` entry of the `;`-separated expression.  The prior
contents `buffSched` are discarded by the `memset`. -/
def get_periodic_schedule (buffSched : Nat → Bool) (paramString : String) : Nat → Bool :=
  (c_strtok ';' paramString).foldl apply_schedule_entry (fun _ => false)

/-- Any decimal digit extracted with C `% 10` is at most 9. -/
theorem tmod_toNat_le_nine (a : Int) : (a.tmod 10).toNat ≤ 9 := by
  have h := Int.tmod_lt_of_pos a (show (0 : Int) < 10 by norm_num)
  omega

/-- `tmod` of a negated dividend. -/
theorem neg_tmod' (a b : Int) : (-a).tmod b = -(a.tmod b) := by
  rw [Int.tmod_def, Int.tmod_def, Int.neg_tdiv]
  ring

/-- `tmod` is bounded by the (positive) divisor in absolute value. -/
theorem tmod_bounds (a : Int) {b : Int} (hb : 0 < b) : -b < a.tmod b ∧ a.tmod b < b := by
  refine ⟨?_, Int.tmod_lt_of_pos a hb⟩
  rcases le_or_lt 0 a with ha | ha
  · have h := Int.tmod_nonneg b ha
    omega
  · have h1 : a.tmod b = -((-a).tmod b) := by
      rw [neg_tmod']
      ring
    have h2 := Int.tmod_lt_of_pos (-a) hb
    omega

/-- Truncating division by a bound of the absolute value is zero. -/
theorem tdiv_eq_zero_of_abs_lt {a b : Int} (h1 : -b < a) (h2 : a < b) : a.tdiv b = 0 := by
  rcases le_or_lt 0 a with ha | ha
  · exact Int.tdiv_eq_zero_of_lt ha h2
  · have h3 : (-a).tdiv b = 0 := Int.tdiv_eq_zero_of_lt (by omega) (by omega)
    have h4 : a.tdiv b = -((-a).tdiv b) := by
      rw [Int.neg_tdiv]
      ring
    rw [h4, h3]
    norm_num

/-- A bounded value shifted left stays below the corresponding power. -/
theorem shiftLeft_lt_pow {x k m : Nat} (hk : k ≤ m) (h : x < 2 ^ (m - k)) :
    x <<< k < 2 ^ m := by
  rw [Nat.shiftLeft_eq]
  have h2 : 2 ^ (m - k) * 2 ^ k = 2 ^ m := by
    rw [← pow_add]
    congr 1
    omega
  calc x * 2 ^ k < 2 ^ (m - k) * 2 ^ k :=
        mul_lt_mul_of_pos_right h (pow_pos (by norm_num) k)
    _ = 2 ^ m := h2

/-- `to_bcd` always fits in 12 bits (three BCD digits). -/
theorem to_bcd_lt (n : Int) : to_bcd n < 2 ^ 12 := by
  unfold to_bcd
  have d1 := tmod_toNat_le_nine (n.tdiv 100)
  have d2 := tmod_toNat_le_nine (n.tdiv 10)
  have d3 := tmod_toNat_le_nine n
  refine Nat.or_lt_two_pow (Nat.or_lt_two_pow ?_ ?_) ?_
  · refine shiftLeft_lt_pow (by norm_num) ?_
    norm_num
    omega
  · refine shiftLeft_lt_pow (by norm_num) ?_
    norm_num
    omega
  · exact lt_of_le_of_lt d3 (by norm_num)

/-- `to_padded_bcd` always fits in 14 bits. -/
theorem to_padded_bcd_lt (n : Int) : to_padded_bcd n < 2 ^ 14 := by
  unfold to_padded_bcd
  have d1 := tmod_toNat_le_nine (n.tdiv 100)
  have d2 := tmod_toNat_le_nine (n.tdiv 10)
  have d3 := tmod_toNat_le_nine n
  refine Nat.or_lt_two_pow (Nat.or_lt_two_pow ?_ ?_) ?_
  · refine shiftLeft_lt_pow (by norm_num) ?_
    norm_num
    omega
  · refine shiftLeft_lt_pow (by norm_num) ?_
    norm_num
    omega
  · exact lt_of_le_of_lt d3 (by norm_num)

/-- A two-digit value (such as `year % 100`) encodes into 8 bits. -/
theorem to_bcd_tmod100_lt (y : Int) : to_bcd (y.tmod 100) < 2 ^ 8 := by
  obtain ⟨hlo, hhi⟩ := tmod_bounds y (show (0 : Int) < 100 by norm_num)
  unfold to_bcd
  rw [tdiv_eq_zero_of_abs_lt hlo hhi]
  simp only [Int.zero_tmod, Int.toNat_zero, Nat.zero_shiftLeft, Nat.zero_or]
  have d2 := tmod_toNat_le_nine ((y.tmod 100).tdiv 10)
  have d3 := tmod_toNat_le_nine (y.tmod 100)
  refine Nat.or_lt_two_pow ?_ ?_
  · refine shiftLeft_lt_pow (by norm_num) ?_
    norm_num
    omega
  · exact lt_of_le_of_lt d3 (by norm_num)

/-- A value in `[0, 80)` (covering minutes, hours, days) encodes into
7 BCD bits. -/
theorem to_bcd_lt_of_lt_80 {n : Int} (h0 : 0 ≤ n) (h : n < 80) : to_bcd n < 2 ^ 7 := by
  unfold to_bcd
  rw [Int.tdiv_eq_zero_of_lt h0 (by omega)]
  simp only [Int.zero_tmod, Int.toNat_zero, Nat.zero_shiftLeft, Nat.zero_or]
  have ht : n.tdiv 10 = n / 10 := Int.tdiv_eq_ediv h0 (by norm_num)
  have h2 : (n.tdiv 10).tmod 10 = n.tdiv 10 := by
    rw [ht]
    exact Int.tmod_eq_of_lt (Int.ediv_nonneg h0 (by norm_num)) (by omega)
  have d3 := tmod_toNat_le_nine n
  refine Nat.or_lt_two_pow ?_ ?_
  · refine shiftLeft_lt_pow (by norm_num) ?_
    rw [h2, ht]
    norm_num
    omega
  · exact lt_of_le_of_lt d3 (by norm_num)

/-- An hour value in `[0, 24)` encodes into 6 BCD bits. -/
theorem to_bcd_lt_of_lt_24 {n : Int} (h0 : 0 ≤ n) (h : n < 24) : to_bcd n < 2 ^ 6 := by
  unfold to_bcd
  rw [Int.tdiv_eq_zero_of_lt h0 (by omega)]
  simp only [Int.zero_tmod, Int.toNat_zero, Nat.zero_shiftLeft, Nat.zero_or]
  have ht : n.tdiv 10 = n / 10 := Int.tdiv_eq_ediv h0 (by norm_num)
  have h2 : (n.tdiv 10).tmod 10 = n.tdiv 10 := by
    rw [ht]
    exact Int.tmod_eq_of_lt (Int.ediv_nonneg h0 (by norm_num)) (by omega)
  have d3 := tmod_toNat_le_nine n
  refine Nat.or_lt_two_pow ?_ ?_
  · refine shiftLeft_lt_pow (by norm_num) ?_
    rw [h2, ht]
    norm_num
    omega
  · exact lt_of_le_of_lt d3 (by norm_num)

/-- A value in `[0, 80)` encodes into 8 padded-BCD bits. -/
theorem to_padded_bcd_lt_of_lt_80 {n : Int} (h0 : 0 ≤ n) (h : n < 80) :
    to_padded_bcd n < 2 ^ 8 := by
  unfold to_padded_bcd
  rw [Int.tdiv_eq_zero_of_lt h0 (by omega)]
  simp only [Int.zero_tmod, Int.toNat_zero, Nat.zero_shiftLeft, Nat.zero_or]
  have ht : n.tdiv 10 = n / 10 := Int.tdiv_eq_ediv h0 (by norm_num)
  have h2 : (n.tdiv 10).tmod 10 = n.tdiv 10 := by
    rw [ht]
    exact Int.tmod_eq_of_lt (Int.ediv_nonneg h0 (by norm_num)) (by omega)
  have d3 := tmod_toNat_le_nine n
  refine Nat.or_lt_two_pow ?_ ?_
  · refine shiftLeft_lt_pow (by norm_num) ?_
    rw [h2, ht]
    norm_num
    omega
  · exact lt_of_le_of_lt d3 (by norm_num)

/-- Parity values are single bits. -/
theorem even_parity_lt_two (data s e : Nat) : even_parity data s e < 2 :=
  Nat.mod_lt _ (by norm_num)

/-- Odd-parity values are single bits. -/
theorem odd_parity_lt_two (data s e : Nat) : odd_parity data s e < 2 := by
  unfold odd_parity
  split <;> norm_num

/-- Flag bits are single bits. -/
theorem cbit_lt_two (p : Prop) [Decidable p] : cbit p < 2 := by
  unfold cbit
  split <;> norm_num

/-- The leap-year flag is a single bit. -/
theorem is_leap_year_lt_two (y : Int) : is_leap_year y < 2 := by
  unfold is_leap_year
  split <;> norm_num

/-- A left shift has no bits below the shift amount. -/
theorem testBit_shiftLeft_low {x i k : Nat} (h : i < k) : (x <<< k).testBit i = false := by
  rw [Nat.testBit_shiftLeft]
  have h1 : ¬ i ≥ k := by omega
  simp [h1]

/-- A bounded value shifted left has no bits at or above its width. -/
theorem testBit_shiftLeft_high {x i k : Nat} (hk : k ≤ i) (h : x < 2 ^ (i - k)) :
    (x <<< k).testBit i = false := by
  rw [Nat.testBit_shiftLeft]
  have h1 : x.testBit (i - k) = false := Nat.testBit_lt_two_pow h
  simp [h1]

/-- A single bit shifted to position `k`, read at position `k`. -/
theorem testBit_shiftLeft_self {p k : Nat} (hp : p < 2) :
    (p <<< k).testBit k = decide (p = 1) := by
  interval_cases p
  · simp
  · rw [Nat.testBit_shiftLeft]
    simp

/-- OR with a term that has no bit at `i` preserves the bit at `i`. -/
theorem testBit_or_left {x y i : Nat} (hy : y.testBit i = false) :
    (x ||| y).testBit i = x.testBit i := by
  rw [Nat.testBit_or, hy, Bool.or_false]

/-- OR with a term that has no bit at `i`, on the left. -/
theorem testBit_or_right {x y i : Nat} (hx : x.testBit i = false) :
    (x ||| y).testBit i = y.testBit i := by
  rw [Nat.testBit_or, hx, Bool.false_or]

/-- An OR of two values without the bit at `i` has no bit at `i`. -/
theorem testBit_or_false {x y i : Nat} (hx : x.testBit i = false)
    (hy : y.testBit i = false) : (x ||| y).testBit i = false := by
  rw [Nat.testBit_or, hx, hy]
  rfl

/-- Reading back a parity bit stored with `|= p << k` into a word whose
bit `k` was clear. -/
theorem testBit_or_shiftLeft_stored {x p k : Nat} (hp : p < 2)
    (hx : x.testBit k = false) : (x ||| p <<< k).testBit k = decide (p = 1) := by
  rw [Nat.testBit_or, hx, Bool.false_or]
  exact testBit_shiftLeft_self hp

/-- `even_parity` only depends on the bits of the counted range. -/
theorem even_parity_congr {x y s e : Nat}
    (h : ∀ i, s ≤ i → i ≤ e → x.testBit i = y.testBit i) :
    even_parity x s e = even_parity y s e := by
  unfold even_parity
  congr 1
  refine List.countP_congr fun i hi => ?_
  rw [List.mem_range'] at hi
  obtain ⟨j, hj, rfl⟩ := hi
  rw [h (s + 1 * j) (by omega) (by omega)]

/-- ORing a single bit outside the counted range preserves `even_parity`. -/
theorem even_parity_or_shiftLeft {x p k s e : Nat} (hp : p < 2) (hk : k < s ∨ e < k) :
    even_parity (x ||| p <<< k) s e = even_parity x s e := by
  refine even_parity_congr fun i his hie => ?_
  refine testBit_or_left ?_
  rcases hk with hk | hk
  · refine testBit_shiftLeft_high (by omega) ?_
    have h2 : (2 : ℕ) ^ 1 ≤ 2 ^ (i - k) := Nat.pow_le_pow_right (by norm_num) (by omega)
    omega
  · exact testBit_shiftLeft_low (by omega)

/-- ORing a value living entirely below the counted range preserves
`even_parity`. -/
theorem even_parity_or_high {x y s e c : Nat} (hy : y < 2 ^ c) (hcs : c ≤ s) :
    even_parity (x ||| y) s e = even_parity x s e := by
  refine even_parity_congr fun i his hie => ?_
  refine testBit_or_left (Nat.testBit_lt_two_pow ?_)
  exact lt_of_lt_of_le hy (Nat.pow_le_pow_right (by norm_num) (by omega))

/-- ORing a value living entirely below the counted range preserves
`odd_parity`. -/
theorem odd_parity_or_high {x y s e c : Nat} (hy : y < 2 ^ c) (hcs : c ≤ s) :
    odd_parity (x ||| y) s e = odd_parity x s e := by
  unfold odd_parity
  rw [even_parity_or_high hy hcs]

/-- The DCF77 field bits have no bit at position 28 (the minute field
occupies at most bits 21..27 for a valid minute). -/
theorem dcf77_fields_bit28 (b : Tm) (hmin0 : 0 ≤ b.tm_min) (hmin : b.tm_min ≤ 59) :
    (dcf77_fields b).testBit 28 = false := by
  unfold dcf77_fields
  refine testBit_or_false (testBit_or_false (testBit_or_false (testBit_or_false
    (testBit_or_false (testBit_or_false (testBit_or_false (testBit_or_false
      ?_ ?_) ?_) ?_) ?_) ?_) ?_) ?_) ?_
  · exact testBit_shiftLeft_high (by norm_num) (lt_of_lt_of_le (cbit_lt_two _) (by norm_num))
  · exact testBit_shiftLeft_high (by norm_num) (lt_of_lt_of_le (cbit_lt_two _) (by norm_num))
  · exact testBit_shiftLeft_high (by norm_num) (by norm_num)
  · exact testBit_shiftLeft_high (by norm_num)
      (lt_of_lt_of_le (to_bcd_lt_of_lt_80 hmin0 (by omega)) (by norm_num))
  · exact testBit_shiftLeft_low (by norm_num)
  · exact testBit_shiftLeft_low (by norm_num)
  · exact testBit_shiftLeft_low (by norm_num)
  · exact testBit_shiftLeft_low (by norm_num)
  · exact testBit_shiftLeft_low (by norm_num)

/-- The DCF77 field bits have no bit at position 35 (the hour field
occupies at most bits 29..34 for a valid hour). -/
theorem dcf77_fields_bit35 (b : Tm) (hhour0 : 0 ≤ b.tm_hour) (hhour : b.tm_hour ≤ 23) :
    (dcf77_fields b).testBit 35 = false := by
  unfold dcf77_fields
  refine testBit_or_false (testBit_or_false (testBit_or_false (testBit_or_false
    (testBit_or_false (testBit_or_false (testBit_or_false (testBit_or_false
      ?_ ?_) ?_) ?_) ?_) ?_) ?_) ?_) ?_
  · exact testBit_shiftLeft_high (by norm_num) (lt_of_lt_of_le (cbit_lt_two _) (by norm_num))
  · exact testBit_shiftLeft_high (by norm_num) (lt_of_lt_of_le (cbit_lt_two _) (by norm_num))
  · exact testBit_shiftLeft_high (by norm_num) (by norm_num)
  · exact testBit_shiftLeft_high (by norm_num) (lt_of_lt_of_le (to_bcd_lt _) (by norm_num))
  · exact testBit_shiftLeft_high (by norm_num)
      (lt_of_lt_of_le (to_bcd_lt_of_lt_24 hhour0 (by omega)) (by norm_num))
  · exact testBit_shiftLeft_low (by norm_num)
  · exact testBit_shiftLeft_low (by norm_num)
  · exact testBit_shiftLeft_low (by norm_num)
  · exact testBit_shiftLeft_low (by norm_num)

/-- The DCF77 field bits have no bit at position 58 (the year field
occupies at most bits 50..57). -/
theorem dcf77_fields_bit58 (b : Tm) : (dcf77_fields b).testBit 58 = false := by
  unfold dcf77_fields
  refine testBit_or_false (testBit_or_false (testBit_or_false (testBit_or_false
    (testBit_or_false (testBit_or_false (testBit_or_false (testBit_or_false
      ?_ ?_) ?_) ?_) ?_) ?_) ?_) ?_) ?_
  · exact testBit_shiftLeft_high (by norm_num) (lt_of_lt_of_le (cbit_lt_two _) (by norm_num))
  · exact testBit_shiftLeft_high (by norm_num) (lt_of_lt_of_le (cbit_lt_two _) (by norm_num))
  · exact testBit_shiftLeft_high (by norm_num) (by norm_num)
  · exact testBit_shiftLeft_high (by norm_num) (lt_of_lt_of_le (to_bcd_lt _) (by norm_num))
  · exact testBit_shiftLeft_high (by norm_num) (lt_of_lt_of_le (to_bcd_lt _) (by norm_num))
  · exact testBit_shiftLeft_high (by norm_num) (lt_of_lt_of_le (to_bcd_lt _) (by norm_num))
  · exact testBit_shiftLeft_high (by norm_num) (lt_of_lt_of_le (to_bcd_lt _) (by norm_num))
  · exact testBit_shiftLeft_high (by norm_num) (lt_of_lt_of_le (to_bcd_lt _) (by norm_num))
  · exact testBit_shiftLeft_high (by norm_num) (lt_of_lt_of_le (to_bcd_tmod100_lt _) (by norm_num))

/-- Each DCF77 parity bit of the final payload equals the even parity,
recomputed over the final payload, of its documented range. -/
theorem dcf77_parity_ok (b : Tm) (hmin0 : 0 ≤ b.tm_min) (hmin : b.tm_min ≤ 59)
    (hhour0 : 0 ≤ b.tm_hour) (hhour : b.tm_hour ≤ 23) :
    (dcf77_time_bits b).testBit 28 = decide (even_parity (dcf77_time_bits b) 21 27 = 1) ∧
    (dcf77_time_bits b).testBit 35 = decide (even_parity (dcf77_time_bits b) 29 34 = 1) ∧
    (dcf77_time_bits b).testBit 58 = decide (even_parity (dcf77_time_bits b) 36 57 = 1) := by
  have ep2 := even_parity_lt_two
  have hw1_35 : (dcf77_with_p1 b).testBit 35 = false := by
    unfold dcf77_with_p1
    exact testBit_or_false (dcf77_fields_bit35 b hhour0 hhour)
      (testBit_shiftLeft_high (by norm_num) (lt_of_lt_of_le (ep2 _ _ _) (by norm_num)))
  have hw2_58 : (dcf77_with_p2 b).testBit 58 = false := by
    unfold dcf77_with_p2 dcf77_with_p1
    refine testBit_or_false (testBit_or_false (dcf77_fields_bit58 b) ?_) ?_
    · exact testBit_shiftLeft_high (by norm_num) (lt_of_lt_of_le (ep2 _ _ _) (by norm_num))
    · exact testBit_shiftLeft_high (by norm_num) (lt_of_lt_of_le (ep2 _ _ _) (by norm_num))
  have hp28 : (dcf77_time_bits b).testBit 28
      = decide (even_parity (dcf77_fields b) 21 27 = 1) := by
    unfold dcf77_time_bits dcf77_with_p2 dcf77_with_p1
    rw [testBit_or_left (testBit_shiftLeft_low (by norm_num)),
      testBit_or_left (testBit_shiftLeft_low (by norm_num))]
    exact testBit_or_shiftLeft_stored (ep2 _ _ _) (dcf77_fields_bit28 b hmin0 hmin)
  have hq1 : even_parity (dcf77_time_bits b) 21 27 = even_parity (dcf77_fields b) 21 27 := by
    unfold dcf77_time_bits dcf77_with_p2 dcf77_with_p1
    rw [even_parity_or_shiftLeft (ep2 _ _ _) (Or.inr (by norm_num)),
      even_parity_or_shiftLeft (ep2 _ _ _) (Or.inr (by norm_num)),
      even_parity_or_shiftLeft (ep2 _ _ _) (Or.inr (by norm_num))]
  have hp35 : (dcf77_time_bits b).testBit 35
      = decide (even_parity (dcf77_with_p1 b) 29 34 = 1) := by
    unfold dcf77_time_bits dcf77_with_p2
    rw [testBit_or_left (testBit_shiftLeft_low (by norm_num))]
    exact testBit_or_shiftLeft_stored (ep2 _ _ _) hw1_35
  have hq2 : even_parity (dcf77_time_bits b) 29 34 = even_parity (dcf77_with_p1 b) 29 34 := by
    unfold dcf77_time_bits dcf77_with_p2
    rw [even_parity_or_shiftLeft (ep2 _ _ _) (Or.inr (by norm_num)),
      even_parity_or_shiftLeft (ep2 _ _ _) (Or.inr (by norm_num))]
  have hp58 : (dcf77_time_bits b).testBit 58
      = decide (even_parity (dcf77_with_p2 b) 36 57 = 1) := by
    unfold dcf77_time_bits
    exact testBit_or_shiftLeft_stored (ep2 _ _ _) hw2_58
  have hq3 : even_parity (dcf77_time_bits b) 36 57 = even_parity (dcf77_with_p2 b) 36 57 := by
    unfold dcf77_time_bits
    rw [even_parity_or_shiftLeft (ep2 _ _ _) (Or.inr (by norm_num))]
  exact ⟨by rw [hp28, hq1], by rw [hp35, hq2], by rw [hp58, hq3]⟩

/-- The JJY field bits have no bit at position `59-36` (PA1 slot). -/
theorem jjy_fields_bit23 (b : Tm) : (jjy_fields b).testBit (59 - 36) = false := by
  unfold jjy_fields
  refine testBit_or_false (testBit_or_false (testBit_or_false (testBit_or_false
    ?_ ?_) ?_) ?_) ?_
  · exact testBit_shiftLeft_low (by norm_num)
  · exact testBit_shiftLeft_low (by norm_num)
  · exact testBit_shiftLeft_low (by norm_num)
  · exact testBit_shiftLeft_high (by norm_num) (lt_of_lt_of_le (to_bcd_tmod100_lt _) (by norm_num))
  · exact testBit_shiftLeft_high (by norm_num) (lt_of_lt_of_le (to_bcd_lt _) (by norm_num))

/-- The JJY field bits have no bit at position `59-37` (PA2 slot). -/
theorem jjy_fields_bit22 (b : Tm) : (jjy_fields b).testBit (59 - 37) = false := by
  unfold jjy_fields
  refine testBit_or_false (testBit_or_false (testBit_or_false (testBit_or_false
    ?_ ?_) ?_) ?_) ?_
  · exact testBit_shiftLeft_low (by norm_num)
  · exact testBit_shiftLeft_low (by norm_num)
  · exact testBit_shiftLeft_low (by norm_num)
  · exact testBit_shiftLeft_high (by norm_num) (lt_of_lt_of_le (to_bcd_tmod100_lt _) (by norm_num))
  · exact testBit_shiftLeft_high (by norm_num) (lt_of_lt_of_le (to_bcd_lt _) (by norm_num))

/-- Each JJY parity bit of the final payload equals the even parity,
recomputed over the final payload, of its documented range. -/
theorem jjy_parity_ok (b : Tm) :
    (jjy_time_bits b).testBit (59 - 36)
      = decide (even_parity (jjy_time_bits b) (59 - 18) (59 - 12) = 1) ∧
    (jjy_time_bits b).testBit (59 - 37)
      = decide (even_parity (jjy_time_bits b) (59 - 8) (59 - 1) = 1) := by
  have ep2 := even_parity_lt_two
  have hp1 : (jjy_time_bits b).testBit (59 - 36)
      = decide (even_parity (jjy_fields b) (59 - 18) (59 - 12) = 1) := by
    unfold jjy_time_bits jjy_with_pa1
    rw [testBit_or_left
      (testBit_shiftLeft_high (by norm_num) (lt_of_lt_of_le (ep2 _ _ _) (by norm_num)))]
    exact testBit_or_shiftLeft_stored (ep2 _ _ _) (jjy_fields_bit23 b)
  have hq1 : even_parity (jjy_time_bits b) (59 - 18) (59 - 12)
      = even_parity (jjy_fields b) (59 - 18) (59 - 12) := by
    unfold jjy_time_bits jjy_with_pa1
    rw [even_parity_or_shiftLeft (ep2 _ _ _) (Or.inl (by norm_num)),
      even_parity_or_shiftLeft (ep2 _ _ _) (Or.inl (by norm_num))]
  have hp2 : (jjy_time_bits b).testBit (59 - 37)
      = decide (even_parity (jjy_with_pa1 b) (59 - 8) (59 - 1) = 1) := by
    unfold jjy_time_bits
    refine testBit_or_shiftLeft_stored (ep2 _ _ _) ?_
    unfold jjy_with_pa1
    exact testBit_or_false (jjy_fields_bit22 b) (testBit_shiftLeft_low (by norm_num))
  have hq2 : even_parity (jjy_time_bits b) (59 - 8) (59 - 1)
      = even_parity (jjy_with_pa1 b) (59 - 8) (59 - 1) := by
    unfold jjy_time_bits
    rw [even_parity_or_shiftLeft (ep2 _ _ _) (Or.inl (by norm_num))]
  exact ⟨by rw [hp1, hq1], by rw [hp2, hq2]⟩

/-- The MSF A word has no bits below position 8 (its lowest field is the
minute at `59-51`). -/
theorem msf_a_bits_low (b : Tm) : ∀ i : ℕ, i < 8 → (msf_a_bits b).testBit i = false := by
  intro i hi
  unfold msf_a_bits
  refine testBit_or_false (testBit_or_false (testBit_or_false (testBit_or_false
    (testBit_or_false ?_ ?_) ?_) ?_) ?_) ?_ <;>
    exact testBit_shiftLeft_low (by omega)

/-- The MSF B word fits into 6 bits. -/
theorem msf_b_bits_lt (b : Tm) : msf_b_bits b < 2 ^ 6 := by
  unfold msf_b_bits
  refine Nat.or_lt_two_pow (Nat.or_lt_two_pow (Nat.or_lt_two_pow (Nat.or_lt_two_pow
    ?_ ?_) ?_) ?_) ?_
  · exact shiftLeft_lt_pow (by norm_num) (lt_of_lt_of_le (odd_parity_lt_two _ _ _) (by norm_num))
  · exact shiftLeft_lt_pow (by norm_num) (lt_of_lt_of_le (odd_parity_lt_two _ _ _) (by norm_num))
  · exact shiftLeft_lt_pow (by norm_num) (lt_of_lt_of_le (odd_parity_lt_two _ _ _) (by norm_num))
  · exact shiftLeft_lt_pow (by norm_num) (lt_of_lt_of_le (odd_parity_lt_two _ _ _) (by norm_num))
  · exact shiftLeft_lt_pow (by norm_num) (lt_of_lt_of_le (cbit_lt_two _) (by norm_num))

/-- Each MSF odd-parity bit of the final payload equals the odd parity,
recomputed over the final payload, of its documented A-word sub-range. -/
theorem msf_parity_ok (b : Tm) :
    (msf_time_bits b).testBit (59 - 54)
      = decide (odd_parity (msf_time_bits b) (59 - 24) (59 - 17) = 1) ∧
    (msf_time_bits b).testBit (59 - 55)
      = decide (odd_parity (msf_time_bits b) (59 - 35) (59 - 25) = 1) ∧
    (msf_time_bits b).testBit (59 - 56)
      = decide (odd_parity (msf_time_bits b) (59 - 38) (59 - 36) = 1) ∧
    (msf_time_bits b).testBit (59 - 57)
      = decide (odd_parity (msf_time_bits b) (59 - 51) (59 - 39) = 1) := by
  have op2 := odd_parity_lt_two
  have hq1 : odd_parity (msf_time_bits b) (59 - 24) (59 - 17)
      = odd_parity (msf_a_bits b) (59 - 24) (59 - 17) := by
    unfold msf_time_bits
    exact odd_parity_or_high (msf_b_bits_lt b) (by norm_num)
  have hq2 : odd_parity (msf_time_bits b) (59 - 35) (59 - 25)
      = odd_parity (msf_a_bits b) (59 - 35) (59 - 25) := by
    unfold msf_time_bits
    exact odd_parity_or_high (msf_b_bits_lt b) (by norm_num)
  have hq3 : odd_parity (msf_time_bits b) (59 - 38) (59 - 36)
      = odd_parity (msf_a_bits b) (59 - 38) (59 - 36) := by
    unfold msf_time_bits
    exact odd_parity_or_high (msf_b_bits_lt b) (by norm_num)
  have hq4 : odd_parity (msf_time_bits b) (59 - 51) (59 - 39)
      = odd_parity (msf_a_bits b) (59 - 51) (59 - 39) := by
    unfold msf_time_bits
    exact odd_parity_or_high (msf_b_bits_lt b) (by norm_num)
  have hp1 : (msf_time_bits b).testBit (59 - 54)
      = decide (odd_parity (msf_a_bits b) (59 - 24) (59 - 17) = 1) := by
    unfold msf_time_bits
    rw [Nat.testBit_or, msf_a_bits_low b (59 - 54) (by norm_num), Bool.false_or]
    unfold msf_b_bits
    rw [testBit_or_left (testBit_shiftLeft_high (by norm_num)
        (lt_of_lt_of_le (cbit_lt_two _) (by norm_num))),
      testBit_or_left (testBit_shiftLeft_high (by norm_num)
        (lt_of_lt_of_le (op2 _ _ _) (by norm_num))),
      testBit_or_left (testBit_shiftLeft_high (by norm_num)
        (lt_of_lt_of_le (op2 _ _ _) (by norm_num))),
      testBit_or_left (testBit_shiftLeft_high (by norm_num)
        (lt_of_lt_of_le (op2 _ _ _) (by norm_num)))]
    exact testBit_shiftLeft_self (op2 _ _ _)
  have hp2 : (msf_time_bits b).testBit (59 - 55)
      = decide (odd_parity (msf_a_bits b) (59 - 35) (59 - 25) = 1) := by
    unfold msf_time_bits
    rw [Nat.testBit_or, msf_a_bits_low b (59 - 55) (by norm_num), Bool.false_or]
    unfold msf_b_bits
    rw [testBit_or_left (testBit_shiftLeft_high (by norm_num)
        (lt_of_lt_of_le (cbit_lt_two _) (by norm_num))),
      testBit_or_left (testBit_shiftLeft_high (by norm_num)
        (lt_of_lt_of_le (op2 _ _ _) (by norm_num))),
      testBit_or_left (testBit_shiftLeft_high (by norm_num)
        (lt_of_lt_of_le (op2 _ _ _) (by norm_num))),
      testBit_or_right (testBit_shiftLeft_low (by norm_num))]
    exact testBit_shiftLeft_self (op2 _ _ _)
  have hp3 : (msf_time_bits b).testBit (59 - 56)
      = decide (odd_parity (msf_a_bits b) (59 - 38) (59 - 36) = 1) := by
    unfold msf_time_bits
    rw [Nat.testBit_or, msf_a_bits_low b (59 - 56) (by norm_num), Bool.false_or]
    unfold msf_b_bits
    rw [testBit_or_left (testBit_shiftLeft_high (by norm_num)
        (lt_of_lt_of_le (cbit_lt_two _) (by norm_num))),
      testBit_or_left (testBit_shiftLeft_high (by norm_num)
        (lt_of_lt_of_le (op2 _ _ _) (by norm_num))),
      testBit_or_right (testBit_or_false (testBit_shiftLeft_low (by norm_num))
        (testBit_shiftLeft_low (by norm_num)))]
    exact testBit_shiftLeft_self (op2 _ _ _)
  have hp4 : (msf_time_bits b).testBit (59 - 57)
      = decide (odd_parity (msf_a_bits b) (59 - 51) (59 - 39) = 1) := by
    unfold msf_time_bits
    rw [Nat.testBit_or, msf_a_bits_low b (59 - 57) (by norm_num), Bool.false_or]
    unfold msf_b_bits
    rw [testBit_or_left (testBit_shiftLeft_high (by norm_num)
        (lt_of_lt_of_le (cbit_lt_two _) (by norm_num))),
      testBit_or_right (testBit_or_false (testBit_or_false
        (testBit_shiftLeft_low (by norm_num)) (testBit_shiftLeft_low (by norm_num)))
        (testBit_shiftLeft_low (by norm_num)))]
    exact testBit_shiftLeft_self (op2 _ _ _)
  exact ⟨by rw [hp1, hq1], by rw [hp2, hq2], by rw [hp3, hq3], by rw [hp4, hq4]⟩

/-- C2: for every 60-bit payload and `second ∈ 0..59`,
`get_modulation_for_second` returns exactly the per-variant durations:
DCF77 100 ms for a 0 bit / 200 ms for a 1 bit read LSB-first at position
`second`, 0 ms at second 59; JJY reads the bit at `59-second`, 800 ms for
0 / 500 ms for 1, seconds 0 and `second % 10 == 9` forced to 200 ms; MSF
100 ms plus 100 ms if the bit at `59-second` is set plus a further 100 ms
when `52 < second < 59`, second 0 fixed at 500 ms; WWVB reads the bit at
`59-second`, 200 ms for 0 / 500 ms for 1, seconds 0 and `second % 10 == 9`
forced to 800 ms. -/
theorem get_modulation_per_variant (timeBits : Nat) (sec : Nat) (h : sec < 60) :
    (sec < 59 → get_modulation_for_second (some .DCF77) timeBits sec
      = if timeBits.testBit sec then 200 else 100) ∧
    (get_modulation_for_second (some .DCF77) timeBits 59 = 0) ∧
    (sec ≠ 0 → sec % 10 ≠ 9 → get_modulation_for_second (some .JJY) timeBits sec
      = if timeBits.testBit (59 - sec) then 500 else 800) ∧
    (sec = 0 ∨ sec % 10 = 9 → get_modulation_for_second (some .JJY) timeBits sec = 200) ∧
    (sec ≠ 0 → get_modulation_for_second (some .MSF) timeBits sec
      = 100 + (if timeBits.testBit (59 - sec) then 100 else 0)
        + (if 52 < sec ∧ sec < 59 then 100 else 0)) ∧
    (get_modulation_for_second (some .MSF) timeBits 0 = 500) ∧
    (sec ≠ 0 → sec % 10 ≠ 9 → get_modulation_for_second (some .WWVB) timeBits sec
      = if timeBits.testBit (59 - sec) then 500 else 200) ∧
    (sec = 0 ∨ sec % 10 = 9 → get_modulation_for_second (some .WWVB) timeBits sec = 800) := by
  refine ⟨fun h59 => ?_, ?_, fun h0 h9 => ?_, fun hm => ?_, fun h0 => ?_, ?_,
    fun h0 h9 => ?_, fun hm => ?_⟩ <;>
    simp only [get_modulation_for_second]
  · rw [if_neg (by omega)]
  · rw [if_pos (by omega)]
  · rw [if_neg (by omega)]
  · rw [if_pos (by omega)]
  · rw [if_neg (by omega)]
    split_ifs <;> norm_num
  · rw [if_pos (Or.inl trivial)]
  · rw [if_neg (by omega)]
  · rw [if_pos (by omega)]

/-- Witness for `get_modulation_per_variant` at `timeBits = 5`, `sec = 3`. -/
theorem get_modulation_per_variant_witness :
    get_modulation_for_second (some .DCF77) 5 3 = 100 := by
  have h := (get_modulation_per_variant 5 3 (by norm_num)).1 (by norm_num)
  rw [h]
  decide

/-- C4: `prepare_minute` encodes the instant shifted forward by exactly
60 s for DCF77 and MSF, the given instant unshifted for JJY and WWVB,
deriving the calendar fields from local civil time (`localtime_r`) for
DCF77/JJY/MSF but from UTC (`gmtime_r`) for WWVB: the payload is the
per-variant bit builder applied to exactly those breakdowns, and hence
depends only on them. -/
theorem prepare_minute_instant_and_calendar (localtime gmtime_f : Int → Tm)
    (currentTime : Int) :
    (prepare_minute (some .DCF77) localtime gmtime_f currentTime
      = dcf77_time_bits (localtime (currentTime + 60))) ∧
    (prepare_minute (some .MSF) localtime gmtime_f currentTime
      = msf_time_bits (localtime (currentTime + 60))) ∧
    (prepare_minute (some .JJY) localtime gmtime_f currentTime
      = jjy_time_bits (localtime currentTime)) ∧
    (prepare_minute (some .WWVB) localtime gmtime_f currentTime
      = wwvb_time_bits (gmtime_f currentTime) (localtime currentTime)
          (localtime (currentTime + 86400))) ∧
    (∀ lt₂ gm₂ : Int → Tm, ∀ t₂ : Int,
      localtime (currentTime + 60) = lt₂ (t₂ + 60) →
      prepare_minute (some .DCF77) localtime gmtime_f currentTime
        = prepare_minute (some .DCF77) lt₂ gm₂ t₂) ∧
    (∀ lt₂ gm₂ : Int → Tm, ∀ t₂ : Int,
      localtime (currentTime + 60) = lt₂ (t₂ + 60) →
      prepare_minute (some .MSF) localtime gmtime_f currentTime
        = prepare_minute (some .MSF) lt₂ gm₂ t₂) ∧
    (∀ lt₂ gm₂ : Int → Tm, ∀ t₂ : Int,
      localtime currentTime = lt₂ t₂ →
      prepare_minute (some .JJY) localtime gmtime_f currentTime
        = prepare_minute (some .JJY) lt₂ gm₂ t₂) ∧
    (∀ lt₂ gm₂ : Int → Tm, ∀ t₂ : Int,
      gmtime_f currentTime = gm₂ t₂ →
      localtime currentTime = lt₂ t₂ →
      localtime (currentTime + 86400) = lt₂ (t₂ + 86400) →
      prepare_minute (some .WWVB) localtime gmtime_f currentTime
        = prepare_minute (some .WWVB) lt₂ gm₂ t₂) := by
  refine ⟨rfl, rfl, rfl, rfl, ?_, ?_, ?_, ?_⟩
  · intro lt₂ gm₂ t₂ h
    simp only [prepare_minute, h]
  · intro lt₂ gm₂ t₂ h
    simp only [prepare_minute, h]
  · intro lt₂ gm₂ t₂ h
    simp only [prepare_minute, h]
  · intro lt₂ gm₂ t₂ hg hl htm
    simp only [prepare_minute, hg, hl, htm]

/-- Witness for `prepare_minute_instant_and_calendar`: two environments
agreeing on the relevant breakdowns yield the same JJY payload. -/
theorem prepare_minute_instant_and_calendar_witness :
    prepare_minute (some .JJY) (fun _ => ⟨0, 0, 1, 0, 124, 0, 0, 0⟩)
        (fun _ => ⟨0, 0, 1, 0, 124, 0, 0, 0⟩) 0
      = prepare_minute (some .JJY) (fun _ => ⟨0, 0, 1, 0, 124, 0, 0, 0⟩)
          (fun _ => ⟨1, 1, 1, 1, 1, 1, 1, 1⟩) 60 :=
  (prepare_minute_instant_and_calendar (fun _ => ⟨0, 0, 1, 0, 124, 0, 0, 0⟩)
    (fun _ => ⟨0, 0, 1, 0, 124, 0, 0, 0⟩) 0).2.2.2.2.2.2.1
    (fun _ => ⟨0, 0, 1, 0, 124, 0, 0, 0⟩) (fun _ => ⟨1, 1, 1, 1, 1, 1, 1, 1⟩) 60 rfl

/-- C6: in the per-second loop the gate polarity for JJY is inverted
relative to the other three variants: JJY enables the clock output at
the start of the second and disables it after the modulation duration,
while DCF77, MSF and WWVB disable it at the start and enable it after
the duration. -/
theorem thread_second_step_gate_polarity (minuteStart : Int) (second : Nat)
    (modulation : Int) :
    ((thread_second_step .JJY minuteStart second modulation).gateAtSecondStart = true ∧
     (thread_second_step .JJY minuteStart second modulation).gateAfterModulation = false) ∧
    (∀ s : TimeService, s ≠ .JJY →
      (thread_second_step s minuteStart second modulation).gateAtSecondStart = false ∧
      (thread_second_step s minuteStart second modulation).gateAfterModulation = true) := by
  refine ⟨⟨rfl, rfl⟩, fun s hs => ?_⟩
  cases s
  · exact ⟨rfl, rfl⟩
  · exact absurd rfl hs
  · exact ⟨rfl, rfl⟩
  · exact ⟨rfl, rfl⟩

/-- Witness for `thread_second_step_gate_polarity` at DCF77. -/
theorem thread_second_step_gate_polarity_witness :
    (thread_second_step .DCF77 0 0 100).gateAtSecondStart = false ∧
    (thread_second_step .DCF77 0 0 100).gateAfterModulation = true :=
  (thread_second_step_gate_polarity 0 0 100).2 .DCF77 (by decide)

/-- C10: for every recognized variant, payload and second in 0..59, the
modulation is in {0, 100, 200, 300, 500, 800}; in particular it is never
negative and below 1000, so the scheduler's `modulation < 0` error
branch is unreachable and `tv_nsec = modulation * 1e6` is a valid
timespec nanosecond value below 10^9. -/
theorem get_modulation_value_range (s : TimeService) (timeBits : Nat) (sec : Nat)
    (h : sec < 60) :
    get_modulation_for_second (some s) timeBits sec ∈ ([0, 100, 200, 300, 500, 800] : List Int) ∧
    ¬ get_modulation_for_second (some s) timeBits sec < 0 ∧
    get_modulation_for_second (some s) timeBits sec < 1000 ∧
    0 ≤ get_modulation_for_second (some s) timeBits sec * 1000000 ∧
    get_modulation_for_second (some s) timeBits sec * 1000000 < 1000000000 := by
  have hmem : get_modulation_for_second (some s) timeBits sec
      ∈ ([0, 100, 200, 300, 500, 800] : List Int) := by
    cases s <;> simp only [get_modulation_for_second] <;> split_ifs <;> simp
  have hval : get_modulation_for_second (some s) timeBits sec = 0 ∨
      get_modulation_for_second (some s) timeBits sec = 100 ∨
      get_modulation_for_second (some s) timeBits sec = 200 ∨
      get_modulation_for_second (some s) timeBits sec = 300 ∨
      get_modulation_for_second (some s) timeBits sec = 500 ∨
      get_modulation_for_second (some s) timeBits sec = 800 := by
    simpa using hmem
  refine ⟨hmem, ?_, ?_, ?_, ?_⟩ <;> omega

/-- Witness for `get_modulation_value_range` at WWVB, payload 0, second 30. -/
theorem get_modulation_value_range_witness :
    ¬ get_modulation_for_second (some .WWVB) 0 30 < 0 :=
  (get_modulation_value_range .WWVB 0 30 (by norm_num)).2.1

/-- C5: every payload produced by `prepare_minute` satisfies the parity
postcondition of its variant: for DCF77 the bits at positions 28, 35 and
58 equal the even parity of the ranges 21..27, 29..34 and 36..57 of the
payload; for JJY the bits at `59-36` and `59-37` equal the even parity
of the hour range `59-18..59-12` and the minute range `59-8..59-1`; for
MSF the four bits at `59-54..59-57` are the odd parity of the disjoint
A-word sub-ranges `59-24..59-17`, `59-35..59-25`, `59-38..59-36` and
`59-51..59-39` — recomputing parity over each documented range of the
final payload reproduces the stored parity bit. -/
theorem prepare_minute_parity_invariant (localtime gmtime_f : Int → Tm) (t : Int)
    (hd : TmRangeOK (localtime (t + 60))) :
    ((prepare_minute (some .DCF77) localtime gmtime_f t).testBit 28
      = decide (even_parity (prepare_minute (some .DCF77) localtime gmtime_f t) 21 27 = 1) ∧
     (prepare_minute (some .DCF77) localtime gmtime_f t).testBit 35
      = decide (even_parity (prepare_minute (some .DCF77) localtime gmtime_f t) 29 34 = 1) ∧
     (prepare_minute (some .DCF77) localtime gmtime_f t).testBit 58
      = decide (even_parity (prepare_minute (some .DCF77) localtime gmtime_f t) 36 57 = 1)) ∧
    ((prepare_minute (some .JJY) localtime gmtime_f t).testBit (59 - 36)
      = decide (even_parity (prepare_minute (some .JJY) localtime gmtime_f t)
          (59 - 18) (59 - 12) = 1) ∧
     (prepare_minute (some .JJY) localtime gmtime_f t).testBit (59 - 37)
      = decide (even_parity (prepare_minute (some .JJY) localtime gmtime_f t)
          (59 - 8) (59 - 1) = 1)) ∧
    ((prepare_minute (some .MSF) localtime gmtime_f t).testBit (59 - 54)
      = decide (odd_parity (prepare_minute (some .MSF) localtime gmtime_f t)
          (59 - 24) (59 - 17) = 1) ∧
     (prepare_minute (some .MSF) localtime gmtime_f t).testBit (59 - 55)
      = decide (odd_parity (prepare_minute (some .MSF) localtime gmtime_f t)
          (59 - 35) (59 - 25) = 1) ∧
     (prepare_minute (some .MSF) localtime gmtime_f t).testBit (59 - 56)
      = decide (odd_parity (prepare_minute (some .MSF) localtime gmtime_f t)
          (59 - 38) (59 - 36) = 1) ∧
     (prepare_minute (some .MSF) localtime gmtime_f t).testBit (59 - 57)
      = decide (odd_parity (prepare_minute (some .MSF) localtime gmtime_f t)
          (59 - 51) (59 - 39) = 1)) := by
  obtain ⟨h1, h2, h3, h4, _⟩ := hd
  exact ⟨dcf77_parity_ok (localtime (t + 60)) h1 h2 h3 h4,
    jjy_parity_ok (localtime t), msf_parity_ok (localtime (t + 60))⟩

/-- Witness for `prepare_minute_parity_invariant` at a concrete
breakdown (midnight 2024-01-01, a Monday). -/
theorem prepare_minute_parity_invariant_witness :
    (prepare_minute (some .DCF77) (fun _ => ⟨0, 0, 1, 0, 124, 1, 0, 0⟩)
        (fun _ => ⟨0, 0, 1, 0, 124, 1, 0, 0⟩) 0).testBit 28
      = decide (even_parity (prepare_minute (some .DCF77)
          (fun _ => ⟨0, 0, 1, 0, 124, 1, 0, 0⟩)
          (fun _ => ⟨0, 0, 1, 0, 124, 1, 0, 0⟩) 0) 21 27 = 1) :=
  (prepare_minute_parity_invariant (fun _ => ⟨0, 0, 1, 0, 124, 1, 0, 0⟩)
    (fun _ => ⟨0, 0, 1, 0, 124, 1, 0, 0⟩) 0 (by decide)).1.1

/-- The DCF77 payload never exceeds 60 bits. -/
theorem dcf77_time_bits_lt (b : Tm) : dcf77_time_bits b < 2 ^ 60 := by
  unfold dcf77_time_bits dcf77_with_p2 dcf77_with_p1 dcf77_fields
  refine Nat.or_lt_two_pow (Nat.or_lt_two_pow (Nat.or_lt_two_pow (Nat.or_lt_two_pow
    (Nat.or_lt_two_pow (Nat.or_lt_two_pow (Nat.or_lt_two_pow (Nat.or_lt_two_pow
      (Nat.or_lt_two_pow (Nat.or_lt_two_pow (Nat.or_lt_two_pow ?_ ?_) ?_) ?_) ?_)
      ?_) ?_) ?_) ?_) ?_) ?_) ?_
  · exact shiftLeft_lt_pow (by norm_num) (lt_of_lt_of_le (cbit_lt_two _) (by norm_num))
  · exact shiftLeft_lt_pow (by norm_num) (lt_of_lt_of_le (cbit_lt_two _) (by norm_num))
  · exact shiftLeft_lt_pow (by norm_num) (by norm_num)
  · exact shiftLeft_lt_pow (by norm_num) (lt_of_lt_of_le (to_bcd_lt _) (by norm_num))
  · exact shiftLeft_lt_pow (by norm_num) (lt_of_lt_of_le (to_bcd_lt _) (by norm_num))
  · exact shiftLeft_lt_pow (by norm_num) (lt_of_lt_of_le (to_bcd_lt _) (by norm_num))
  · exact shiftLeft_lt_pow (by norm_num) (lt_of_lt_of_le (to_bcd_lt _) (by norm_num))
  · exact shiftLeft_lt_pow (by norm_num) (lt_of_lt_of_le (to_bcd_lt _) (by norm_num))
  · exact shiftLeft_lt_pow (by norm_num) (lt_of_lt_of_le (to_bcd_tmod100_lt _) (by norm_num))
  · exact shiftLeft_lt_pow (by norm_num) (lt_of_lt_of_le (even_parity_lt_two _ _ _) (by norm_num))
  · exact shiftLeft_lt_pow (by norm_num) (lt_of_lt_of_le (even_parity_lt_two _ _ _) (by norm_num))
  · exact shiftLeft_lt_pow (by norm_num) (lt_of_lt_of_le (even_parity_lt_two _ _ _) (by norm_num))

/-- The JJY payload never exceeds 60 bits (for a valid minute field). -/
theorem jjy_time_bits_lt (b : Tm) (h0 : 0 ≤ b.tm_min) (h1 : b.tm_min ≤ 59) :
    jjy_time_bits b < 2 ^ 60 := by
  unfold jjy_time_bits jjy_with_pa1 jjy_fields
  refine Nat.or_lt_two_pow (Nat.or_lt_two_pow (Nat.or_lt_two_pow (Nat.or_lt_two_pow
    (Nat.or_lt_two_pow (Nat.or_lt_two_pow ?_ ?_) ?_) ?_) ?_) ?_) ?_
  · exact shiftLeft_lt_pow (by norm_num)
      (lt_of_lt_of_le (to_padded_bcd_lt_of_lt_80 h0 (by omega)) (by norm_num))
  · exact shiftLeft_lt_pow (by norm_num) (lt_of_lt_of_le (to_padded_bcd_lt _) (by norm_num))
  · exact shiftLeft_lt_pow (by norm_num) (lt_of_lt_of_le (to_padded_bcd_lt _) (by norm_num))
  · exact shiftLeft_lt_pow (by norm_num) (lt_of_lt_of_le (to_bcd_lt _) (by norm_num))
  · exact shiftLeft_lt_pow (by norm_num) (lt_of_lt_of_le (to_bcd_lt _) (by norm_num))
  · exact shiftLeft_lt_pow (by norm_num) (lt_of_lt_of_le (even_parity_lt_two _ _ _) (by norm_num))
  · exact shiftLeft_lt_pow (by norm_num) (lt_of_lt_of_le (even_parity_lt_two _ _ _) (by norm_num))

/-- The MSF payload never exceeds 60 bits. -/
theorem msf_time_bits_lt (b : Tm) : msf_time_bits b < 2 ^ 60 := by
  unfold msf_time_bits
  refine Nat.or_lt_two_pow ?_ (lt_of_lt_of_le (msf_b_bits_lt b) (by norm_num))
  unfold msf_a_bits
  refine Nat.or_lt_two_pow (Nat.or_lt_two_pow (Nat.or_lt_two_pow (Nat.or_lt_two_pow
    (Nat.or_lt_two_pow ?_ ?_) ?_) ?_) ?_) ?_ <;>
    exact shiftLeft_lt_pow (by norm_num) (lt_of_lt_of_le (to_bcd_lt _) (by norm_num))

/-- The WWVB payload never exceeds 60 bits (for a valid UTC minute field). -/
theorem wwvb_time_bits_lt (g l tm : Tm) (h0 : 0 ≤ g.tm_min) (h1 : g.tm_min ≤ 59) :
    wwvb_time_bits g l tm < 2 ^ 60 := by
  unfold wwvb_time_bits
  refine Nat.or_lt_two_pow (Nat.or_lt_two_pow (Nat.or_lt_two_pow (Nat.or_lt_two_pow
    (Nat.or_lt_two_pow (Nat.or_lt_two_pow ?_ ?_) ?_) ?_) ?_) ?_) ?_
  · exact shiftLeft_lt_pow (by norm_num)
      (lt_of_lt_of_le (to_padded_bcd_lt_of_lt_80 h0 (by omega)) (by norm_num))
  · exact shiftLeft_lt_pow (by norm_num) (lt_of_lt_of_le (to_padded_bcd_lt _) (by norm_num))
  · exact shiftLeft_lt_pow (by norm_num) (lt_of_lt_of_le (to_padded_bcd_lt _) (by norm_num))
  · exact shiftLeft_lt_pow (by norm_num) (lt_of_lt_of_le (to_padded_bcd_lt _) (by norm_num))
  · exact shiftLeft_lt_pow (by norm_num) (lt_of_lt_of_le (is_leap_year_lt_two _) (by norm_num))
  · exact shiftLeft_lt_pow (by norm_num) (lt_of_lt_of_le (cbit_lt_two _) (by norm_num))
  · exact shiftLeft_lt_pow (by norm_num) (lt_of_lt_of_le (cbit_lt_two _) (by norm_num))

/-- C9: for every recognized variant the payload has only bits 0..59 set
(it is below `2^60`), hence never equals the `(uint64_t)-1` error
sentinel; the sentinel is produced exactly by the unrecognized-variant
`default` branch, so the scheduler's "Error preparing minute bits"
branch triggers exactly for unrecognized variants. -/
theorem prepare_minute_width (localtime gmtime_f : Int → Tm) (t : Int)
    (hl : TmRangeOK (localtime t)) (hg : TmRangeOK (gmtime_f t)) :
    (∀ s : TimeService, prepare_minute (some s) localtime gmtime_f t < 2 ^ 60 ∧
      prepare_minute (some s) localtime gmtime_f t ≠ 2 ^ 64 - 1) ∧
    prepare_minute none localtime gmtime_f t = 2 ^ 64 - 1 := by
  obtain ⟨hm0, hm1, _⟩ := hl
  obtain ⟨hg0, hg1, _⟩ := hg
  refine ⟨fun s => ?_, rfl⟩
  have hlt : prepare_minute (some s) localtime gmtime_f t < 2 ^ 60 := by
    cases s
    · exact dcf77_time_bits_lt _
    · exact jjy_time_bits_lt _ hm0 hm1
    · exact msf_time_bits_lt _
    · exact wwvb_time_bits_lt _ _ _ hg0 hg1
  refine ⟨hlt, fun h => ?_⟩
  rw [h] at hlt
  norm_num at hlt

/-- Witness for `prepare_minute_width` at a concrete breakdown. -/
theorem prepare_minute_width_witness :
    prepare_minute (some .WWVB) (fun _ => ⟨0, 0, 1, 0, 124, 1, 0, 0⟩)
      (fun _ => ⟨0, 0, 1, 0, 124, 1, 0, 0⟩) 0 < 2 ^ 60 :=
  ((prepare_minute_width (fun _ => ⟨0, 0, 1, 0, 124, 1, 0, 0⟩)
    (fun _ => ⟨0, 0, 1, 0, 124, 1, 0, 0⟩) 0 (by decide) (by decide)).1 .WWVB).1

/-- The WWVB leap-year flag bit (`59-55`) of any payload equals the
`is_leap_year` bit of the transmitted year. -/
theorem wwvb_leap_bit (g l tm : Tm) :
    (wwvb_time_bits g l tm).testBit (59 - 55)
      = decide (is_leap_year (g.tm_year + 1900) = 1) := by
  unfold wwvb_time_bits
  rw [testBit_or_left (testBit_shiftLeft_high (by norm_num)
      (lt_of_lt_of_le (cbit_lt_two _) (by norm_num))),
    testBit_or_left (testBit_shiftLeft_high (by norm_num)
      (lt_of_lt_of_le (cbit_lt_two _) (by norm_num))),
    testBit_or_right (testBit_or_false (testBit_or_false (testBit_or_false
      (testBit_shiftLeft_low (by norm_num)) (testBit_shiftLeft_low (by norm_num)))
      (testBit_shiftLeft_low (by norm_num))) (testBit_shiftLeft_low (by norm_num)))]
  exact testBit_shiftLeft_self (is_leap_year_lt_two _)

/-- C8: encoding 2024-06-15 12:00:00 UTC for WWVB sets the leap-year
flag bit (position `59-55`), which in general equals 1 exactly when the
transmitted year is a Gregorian leap year (divisible by 4 and, if
divisible by 100, also by 400); and `get_modulation_for_second` on that
payload returns 500 or 200 ms for every non-marker second. -/
theorem wwvb_scenario_leap_and_modulation :
    (∀ g l tm : Tm, (wwvb_time_bits g l tm).testBit (59 - 55)
      = decide (is_leap_year (g.tm_year + 1900) = 1)) ∧
    (∀ y : Int, is_leap_year y = 1 ↔ (4 ∣ y ∧ (¬ (100 ∣ y) ∨ 400 ∣ y))) ∧
    is_leap_year (wwvbScenarioUtc.tm_year + 1900) = 1 ∧
    wwvbScenarioBits.testBit (59 - 55) = true ∧
    (∀ sec : Nat, sec < 60 → sec ≠ 0 → sec % 10 ≠ 9 →
      get_modulation_for_second (some .WWVB) wwvbScenarioBits sec = 500 ∨
      get_modulation_for_second (some .WWVB) wwvbScenarioBits sec = 200) := by
  refine ⟨wwvb_leap_bit, fun y => ?_, by decide, by decide, by decide⟩
  unfold is_leap_year
  rw [Int.dvd_iff_tmod_eq_zero, Int.dvd_iff_tmod_eq_zero, Int.dvd_iff_tmod_eq_zero]
  split_ifs with h
  · exact iff_of_true rfl h
  · exact iff_of_false (by norm_num) h

/-- Witness for `wwvb_scenario_leap_and_modulation` at second 30. -/
theorem wwvb_scenario_leap_and_modulation_witness :
    get_modulation_for_second (some .WWVB) wwvbScenarioBits 30 = 500 ∨
    get_modulation_for_second (some .WWVB) wwvbScenarioBits 30 = 200 :=
  wwvb_scenario_leap_and_modulation.2.2.2.2 30 (by norm_num) (by norm_num) (by norm_num)

/-- Once the selection loop of `start_clock` holds a best candidate, it
never loses it (each iteration keeps or replaces `some _`). -/
theorem foldl_consider_from_some (f : ℚ) (l : List CLOCK_SOURCE) :
    ∀ b : Chosen, ∃ c, l.foldl (consider f) (some b) = some c := by
  induction l with
  | nil => exact fun b => ⟨b, rfl⟩
  | cons x l ih =>
    intro b
    rw [List.foldl_cons]
    by_cases hx : division f x < 2 ∨ division f x > 4095
    · have hA : consider f (some b) x = some b := by
        unfold consider
        exact if_pos hx
      rw [hA]
      exact ih b
    · by_cases hskip : candError f x > b.bestError ∨
          (candError f x = b.bestError ∧ x.clockFrequency ≤ b.src.clockFrequency)
      · have hA : consider f (some b) x = some b := by
          unfold consider
          rw [if_neg hx]
          exact if_pos hskip
        rw [hA]
        exact ih b
      · have hA : consider f (some b) x
            = some ⟨x, testDivI f x, testDivF f x, candError f x⟩ := by
          unfold consider
          rw [if_neg hx]
          exact if_neg hskip
        rw [hA]
        exact ih _

/-- The selection loop ends with no candidate exactly when it started
with none and every source in the list is unsuitable. -/
theorem foldl_consider_none_iff (f : ℚ) (l : List CLOCK_SOURCE) (acc : Option Chosen) :
    l.foldl (consider f) acc = none ↔ acc = none ∧ ∀ s ∈ l, ¬ src_suitable f s := by
  induction l generalizing acc with
  | nil => simp
  | cons x l ih =>
    rw [List.foldl_cons]
    by_cases hx : division f x < 2 ∨ division f x > 4095
    · have hA : consider f acc x = acc := by
        unfold consider
        exact if_pos hx
      rw [hA, ih]
      constructor
      · rintro ⟨rfl, hall⟩
        refine ⟨rfl, fun s hs => ?_⟩
        rcases List.mem_cons.mp hs with rfl | hs
        · exact fun hsuit => hsuit hx
        · exact hall s hs
      · rintro ⟨rfl, hall⟩
        exact ⟨rfl, fun s hs => hall s (List.mem_cons_of_mem _ hs)⟩
    · cases acc with
      | none =>
        have hA : consider f none x
            = some ⟨x, testDivI f x, testDivF f x, candError f x⟩ := by
          unfold consider
          exact if_neg hx
        rw [hA]
        obtain ⟨c, hc⟩ := foldl_consider_from_some f l
          ⟨x, testDivI f x, testDivF f x, candError f x⟩
        rw [hc]
        constructor
        · intro h0
          exact Option.noConfusion h0
        · rintro ⟨-, hall⟩
          exact absurd hx (hall x (List.mem_cons_self x l))
      | some b =>
        have hA : ∃ cb, consider f (some b) x = some cb := by
          by_cases hskip : candError f x > b.bestError ∨
              (candError f x = b.bestError ∧ x.clockFrequency ≤ b.src.clockFrequency)
          · refine ⟨b, ?_⟩
            unfold consider
            rw [if_neg hx]
            exact if_pos hskip
          · refine ⟨⟨x, testDivI f x, testDivF f x, candError f x⟩, ?_⟩
            unfold consider
            rw [if_neg hx]
            exact if_neg hskip
        obtain ⟨cb, hcb⟩ := hA
        rw [hcb]
        obtain ⟨c, hc⟩ := foldl_consider_from_some f l cb
        rw [hc]
        constructor
        · intro h0
          exact Option.noConfusion h0
        · rintro ⟨h0, -⟩
          exact Option.noConfusion h0

/-- Specification of the selection loop of `start_clock`: the final
candidate is lexicographically optimal (smallest error; on exact ties,
highest source frequency) among all suitable sources of the list, only
ever improves on the accumulator, and (unless it is the untouched
accumulator) is itself a suitable source of the list with the divisors
and error computed for it. -/
theorem foldl_consider_spec (f : ℚ) (l : List CLOCK_SOURCE) :
    ∀ (acc : Option Chosen) (c : Chosen), l.foldl (consider f) acc = some c →
      (∀ s ∈ l, src_suitable f s →
        (c.bestError < candError f s ∨
          (c.bestError = candError f s ∧ s.clockFrequency ≤ c.src.clockFrequency))) ∧
      (∀ b : Chosen, acc = some b →
        (c = b ∨ c.bestError < b.bestError ∨
          (c.bestError = b.bestError ∧ b.src.clockFrequency < c.src.clockFrequency))) ∧
      (acc = some c ∨ (c.src ∈ l ∧ src_suitable f c.src ∧
        c.bestError = candError f c.src ∧ c.divI = testDivI f c.src ∧
        c.divF = testDivF f c.src)) := by
  induction l with
  | nil =>
    intro acc c h
    rw [List.foldl_nil] at h
    subst h
    refine ⟨fun s hs => absurd hs (List.not_mem_nil s), fun b hb => ?_, Or.inl rfl⟩
    rw [Option.some_inj] at hb
    exact Or.inl hb
  | cons x l ih =>
    intro acc c h
    rw [List.foldl_cons] at h
    by_cases hx : division f x < 2 ∨ division f x > 4095
    · have hA : consider f acc x = acc := by
        unfold consider
        exact if_pos hx
      rw [hA] at h
      obtain ⟨ih1, ih2, ih3⟩ := ih acc c h
      refine ⟨fun s hs hsuit => ?_, ih2, ?_⟩
      · rcases List.mem_cons.mp hs with rfl | hs
        · exact absurd hx hsuit
        · exact ih1 s hs hsuit
      · rcases ih3 with h3 | ⟨hmem, h3⟩
        · exact Or.inl h3
        · exact Or.inr ⟨List.mem_cons_of_mem _ hmem, h3⟩
    · have hsx : src_suitable f x := hx
      cases acc with
      | none =>
        have hA : consider f none x
            = some ⟨x, testDivI f x, testDivF f x, candError f x⟩ := by
          unfold consider
          exact if_neg hx
        rw [hA] at h
        obtain ⟨ih1, ih2, ih3⟩ := ih _ c h
        have hcx : c = (⟨x, testDivI f x, testDivF f x, candError f x⟩ : Chosen) ∨
            c.bestError < candError f x ∨
            (c.bestError = candError f x ∧ x.clockFrequency < c.src.clockFrequency) :=
          ih2 _ rfl
        refine ⟨fun s hs hsuit => ?_, fun b hb => Option.noConfusion hb, ?_⟩
        · rcases List.mem_cons.mp hs with rfl | hs
          · rcases hcx with rfl | he | ⟨he, hf⟩
            · exact Or.inr ⟨rfl, le_refl _⟩
            · exact Or.inl he
            · exact Or.inr ⟨he, le_of_lt hf⟩
          · exact ih1 s hs hsuit
        · rcases ih3 with h3 | ⟨hmem, h3⟩
          · rw [Option.some_inj] at h3
            rw [← h3]
            exact Or.inr ⟨List.mem_cons_self x l, hsx, rfl, rfl, rfl⟩
          · exact Or.inr ⟨List.mem_cons_of_mem _ hmem, h3⟩
      | some b =>
        by_cases hskip : candError f x > b.bestError ∨
            (candError f x = b.bestError ∧ x.clockFrequency ≤ b.src.clockFrequency)
        · have hA : consider f (some b) x = some b := by
            unfold consider
            rw [if_neg hx]
            exact if_pos hskip
          rw [hA] at h
          obtain ⟨ih1, ih2, ih3⟩ := ih _ c h
          have hcb : c = b ∨ c.bestError < b.bestError ∨
              (c.bestError = b.bestError ∧ b.src.clockFrequency < c.src.clockFrequency) :=
            ih2 b rfl
          refine ⟨fun s hs hsuit => ?_, fun b0 hb0 => ?_, ?_⟩
          · rcases List.mem_cons.mp hs with rfl | hs
            · rcases hcb with rfl | he | ⟨he, hf⟩
              · rcases hskip with hg | ⟨hg, hf⟩
                · exact Or.inl hg
                · exact Or.inr ⟨hg.symm, hf⟩
              · rcases hskip with hg | ⟨hg, hf⟩
                · exact Or.inl (by linarith)
                · exact Or.inl (by linarith [he, hg])
              · rcases hskip with hg | ⟨hg, hf2⟩
                · exact Or.inl (by linarith)
                · exact Or.inr ⟨by linarith, by linarith⟩
            · exact ih1 s hs hsuit
          · rw [Option.some_inj] at hb0
            subst hb0
            exact hcb
          · rcases ih3 with h3 | ⟨hmem, h3⟩
            · exact Or.inl h3
            · exact Or.inr ⟨List.mem_cons_of_mem _ hmem, h3⟩
        · have hA : consider f (some b) x
              = some ⟨x, testDivI f x, testDivF f x, candError f x⟩ := by
            unfold consider
            rw [if_neg hx]
            exact if_neg hskip
          rw [hA] at h
          obtain ⟨ih1, ih2, ih3⟩ := ih _ c h
          have hcx : c = (⟨x, testDivI f x, testDivF f x, candError f x⟩ : Chosen) ∨
              c.bestError < candError f x ∨
              (c.bestError = candError f x ∧ x.clockFrequency < c.src.clockFrequency) :=
            ih2 _ rfl
          push_neg at hskip
          obtain ⟨hle, htie⟩ := hskip
          refine ⟨fun s hs hsuit => ?_, fun b0 hb0 => ?_, ?_⟩
          · rcases List.mem_cons.mp hs with rfl | hs
            · rcases hcx with rfl | he | ⟨he, hf⟩
              · exact Or.inr ⟨rfl, le_refl _⟩
              · exact Or.inl he
              · exact Or.inr ⟨he, le_of_lt hf⟩
            · exact ih1 s hs hsuit
          · rw [Option.some_inj] at hb0
            subst hb0
            rcases lt_or_eq_of_le hle with hlt | heq
            · rcases hcx with rfl | he | ⟨he, hf⟩
              · exact Or.inr (Or.inl hlt)
              · exact Or.inr (Or.inl (by linarith))
              · exact Or.inr (Or.inl (by linarith))
            · have hfreq := htie heq
              rcases hcx with rfl | he | ⟨he, hf⟩
              · exact Or.inr (Or.inr ⟨heq, hfreq⟩)
              · exact Or.inr (Or.inl (by linarith))
              · exact Or.inr (Or.inr ⟨by linarith, by linarith⟩)
          · rcases ih3 with h3 | ⟨hmem, h3⟩
            · rw [Option.some_inj] at h3
              rw [← h3]
              exact Or.inr ⟨List.mem_cons_self x l, hsx, rfl, rfl, rfl⟩
            · exact Or.inr ⟨List.mem_cons_of_mem _ hmem, h3⟩

/-- The marking loop sets exactly the wrapped indices
`(startMinute + i) % 1440`, `i < runMinutes`, on top of the given mask. -/
theorem mark_minutes_spec (startMinute len : Nat) (mask : Nat → Bool) (m : Nat) :
    mark_minutes startMinute len mask m
      = (mask m || decide (∃ i, i < len ∧ m = (startMinute + i) % 1440)) := by
  induction len with
  | zero => simp [mark_minutes]
  | succ n ih =>
    have hstep : mark_minutes startMinute (n + 1) mask m
        = if m = (startMinute + n) % 1440 then true
          else mark_minutes startMinute n mask m := by
      unfold mark_minutes
      rw [List.range_succ, List.foldl_append, List.foldl_cons, List.foldl_nil]
    rw [hstep]
    by_cases hm : m = (startMinute + n) % 1440
    · rw [if_pos hm]
      have hex : ∃ i, i < n + 1 ∧ m = (startMinute + i) % 1440 := ⟨n, by omega, hm⟩
      rw [decide_eq_true hex, Bool.or_true]
    · rw [if_neg hm, ih]
      congr 1
      refine decide_eq_decide.mpr ⟨fun ⟨i, hi, he⟩ => ⟨i, by omega, he⟩, ?_⟩
      rintro ⟨i, hi, he⟩
      refine ⟨i, ?_, he⟩
      rcases Nat.lt_succ_iff_lt_or_eq.mp hi with hlt | rfl
      · exact hlt
      · exact absurd he hm

/-- A valid `START:LEN` entry marks exactly the `LEN` wrapped minute
indices starting at `lround(START*60)`, leaving the rest of the mask
unchanged. -/
theorem apply_schedule_fields_spec (mask : Nat → Bool) (sh sm : String)
    (rest : List String) (h : ℚ) (len : Nat)
    (hsh : sscanf_lf sh = some h) (h0 : 0 ≤ h) (h24 : h < 24)
    (hsm : sscanf_u16 sm = some len) (hlen : len ≤ 1440)
    (hstart : (lround_q (h * 60)).toNat % 65536 < 1440) (m : Nat) :
    apply_schedule_fields mask (sh :: sm :: rest) m
      = (mask m || decide (∃ i, i < len ∧
          m = ((lround_q (h * 60)).toNat % 65536 + i) % 1440)) := by
  unfold apply_schedule_fields
  simp only [hsh, hsm]
  rw [if_neg (not_not_intro ⟨h0, h24⟩), if_neg (by omega), if_neg (by omega)]
  exact mark_minutes_spec _ _ _ _

/-- C1 (amended): if at least one source of the candidate table —
regardless of its `enableForUse` flag, which the selection loop never
consults — satisfies `2 ≤ S/f ≤ 4095`, then `start_clock` selects a
suitable candidate whose absolute error is ≤ the error of every other
suitable candidate (in particular of every suitable *enabled* one),
breaking exact error ties toward the higher source frequency; if no
source at all satisfies the ratio bound, `start_clock` returns `-1.0`
and performs no register write. -/
theorem start_clock_selection (sources : List CLOCK_SOURCE) (f : ℚ) :
    ((∃ s ∈ sources, src_suitable f s) →
      ∃ c : Chosen, sources.foldl (consider f) none = some c ∧
        c.src ∈ sources ∧ src_suitable f c.src ∧
        c.bestError = candError f c.src ∧
        (start_clock sources f).returnValue = resultFreq f c.src ∧
        (∀ s ∈ sources, src_suitable f s →
          candError f c.src ≤ candError f s ∧
            (candError f c.src = candError f s → s.clockFrequency ≤ c.src.clockFrequency))) ∧
    ((∀ s ∈ sources, ¬ src_suitable f s) →
      (start_clock sources f).returnValue = -1 ∧
      (start_clock sources f).registerActions = []) := by
  constructor
  · rintro ⟨s0, hs0, hsuit0⟩
    cases hfold : sources.foldl (consider f) none with
    | none =>
      rw [foldl_consider_none_iff] at hfold
      exact absurd hsuit0 (hfold.2 s0 hs0)
    | some c =>
      obtain ⟨hlex, -, hmem⟩ := foldl_consider_spec f sources none c hfold
      rcases hmem with h0 | ⟨hmem, hsuitc, herr, hdivI, hdivF⟩
      · exact Option.noConfusion h0
      refine ⟨c, rfl, hmem, hsuitc, herr, ?_, fun s hs hsf => ?_⟩
      · unfold start_clock
        rw [hfold]
        show c.src.clockFrequency / ((c.divI : ℚ) + (c.divF : ℚ) / 1024) = resultFreq f c.src
        rw [hdivI, hdivF]
        rfl
      · have hthis := hlex s hs hsf
        rw [herr] at hthis
        rcases hthis with h | ⟨h1, h2⟩
        · exact ⟨le_of_lt h, fun he => absurd (he ▸ h) (lt_irrefl _)⟩
        · exact ⟨le_of_eq h1, fun _ => h2⟩
  · intro hall
    have hfold : sources.foldl (consider f) none = none :=
      (foldl_consider_none_iff f sources none).mpr ⟨rfl, hall⟩
    unfold start_clock
    rw [hfold]
    exact ⟨rfl, rfl⟩

/-- Witness for `start_clock_selection`: the 19.2 MHz oscillator is a
suitable source for the DCF77 carrier of 77 500 Hz. -/
theorem start_clock_selection_witness :
    ∃ c : Chosen,
      (clock_sources 19200000 0 0 500000000 216000000).foldl (consider 77500) none = some c ∧
      c.src ∈ clock_sources 19200000 0 0 500000000 216000000 ∧
      src_suitable 77500 c.src ∧
      c.bestError = candError 77500 c.src ∧
      (start_clock (clock_sources 19200000 0 0 500000000 216000000) 77500).returnValue
        = resultFreq 77500 c.src ∧
      (∀ s ∈ clock_sources 19200000 0 0 500000000 216000000, src_suitable 77500 s →
        candError 77500 c.src ≤ candError 77500 s ∧
          (candError 77500 c.src = candError 77500 s →
            s.clockFrequency ≤ c.src.clockFrequency)) :=
  (start_clock_selection (clock_sources 19200000 0 0 500000000 216000000) 77500).1
    ⟨⟨1, "osc", true, 19200000⟩, by decide, by norm_num [src_suitable, division]⟩

/-- Counterexample to C1 as frozen: with the table's real enable flags
(`osc`, `plld_per`, `pllh_aux` enabled; `plla_per`, `pllc_per`
disabled), live frequencies 19.2 MHz / 700 MHz / 0 / 500 MHz / 216 MHz
and requested frequency 3·10^8 Hz, **no enabled source** satisfies the
ratio bound, yet `start_clock` does not return `-1.0` and does program
the registers — the loop never consults `enableForUse` and selects the
disabled `plla_per`. -/
theorem start_clock_enabled_claim_counterexample :
    ((clock_sources 19200000 700000000 0 500000000 216000000).filter
        (fun s => s.enableForUse))
      = [⟨1, "osc", true, 19200000⟩, ⟨6, "plld_per", true, 500000000⟩,
         ⟨7, "pllh_aux", true, 216000000⟩] ∧
    ¬ src_suitable 300000000 ⟨1, "osc", true, 19200000⟩ ∧
    ¬ src_suitable 300000000 ⟨6, "plld_per", true, 500000000⟩ ∧
    ¬ src_suitable 300000000 ⟨7, "pllh_aux", true, 216000000⟩ ∧
    (start_clock (clock_sources 19200000 700000000 0 500000000 216000000)
      300000000).returnValue ≠ -1 ∧
    (start_clock (clock_sources 19200000 700000000 0 500000000 216000000)
      300000000).registerActions ≠ [] := by
  refine ⟨by decide, by norm_num [src_suitable, division],
    by norm_num [src_suitable, division], by norm_num [src_suitable, division], ?_, ?_⟩
  · have h : (start_clock (clock_sources 19200000 700000000 0 500000000 216000000)
        300000000).returnValue = 716800000000 / 2389 := by
      norm_num [start_clock, clock_sources, consider, division, candError, resultFreq,
        testDivI, testDivF, ctrunc, List.foldl]
    rw [h]
    norm_num
  · norm_num [start_clock, clock_sources, consider, division, candError, resultFreq,
      testDivI, testDivF, ctrunc, List.foldl]
    simp

/-- C3 (amended): the fractional divisor of `start_clock` is computed by
C truncation, `divF = trunc((division − divI) × 1024)` (not by
rounding), and lies in `0..1023` for any suitable candidate; for the
requested frequency 77 500 Hz against the 19 200 000 Hz fixed source
this yields `divI = 247`, `divF = 759` and an achieved frequency whose
absolute error from 77 500 Hz is `57500/253687 ≈ 0.227 Hz` (within
0.25 Hz, but not within 0.1 Hz). -/
theorem start_clock_divisor_truncation :
    (∀ (f : ℚ) (s : CLOCK_SOURCE), src_suitable f s →
      testDivI f s = ⌊division f s⌋ ∧
      testDivF f s = ⌊(division f s - (⌊division f s⌋ : ℚ)) * 1024⌋ ∧
      0 ≤ testDivF f s ∧ testDivF f s ≤ 1023) ∧
    testDivI 77500 ⟨1, "osc", true, 19200000⟩ = 247 ∧
    testDivF 77500 ⟨1, "osc", true, 19200000⟩ = 759 ∧
    candError 77500 ⟨1, "osc", true, 19200000⟩ = 57500 / 253687 ∧
    candError 77500 ⟨1, "osc", true, 19200000⟩ < 1 / 4 ∧
    (start_clock (clock_sources 19200000 0 0 0 0) 77500).returnValue
      = 19660800000 / 253687 := by
  refine ⟨fun f s hs => ?_, by norm_num [testDivI, ctrunc, division],
    by norm_num [testDivF, testDivI, ctrunc, division],
    by unfold candError resultFreq; norm_num [testDivI, testDivF, ctrunc, division],
    by rw [show candError 77500 ⟨1, "osc", true, 19200000⟩ = 57500 / 253687 from
        by unfold candError resultFreq; norm_num [testDivI, testDivF, ctrunc, division]]
       norm_num,
    by norm_num [start_clock, clock_sources, consider, division, candError, resultFreq,
      testDivI, testDivF, ctrunc, List.foldl]⟩
  have hd2 : 2 ≤ division f s := by
    unfold src_suitable at hs
    push_neg at hs
    exact hs.1
  have hI : testDivI f s = ⌊division f s⌋ := by
    unfold testDivI ctrunc
    rw [if_pos (by linarith)]
  have hfl := Int.floor_le (division f s)
  have hfu := Int.lt_floor_add_one (division f s)
  have hfrac0 : (0 : ℚ) ≤ (division f s - (⌊division f s⌋ : ℚ)) * 1024 := by
    have h1 : (0 : ℚ) ≤ division f s - (⌊division f s⌋ : ℚ) := by linarith
    positivity
  have hfrac1 : (division f s - (⌊division f s⌋ : ℚ)) * 1024 < 1024 := by
    nlinarith
  have hF : testDivF f s = ⌊(division f s - (⌊division f s⌋ : ℚ)) * 1024⌋ := by
    unfold testDivF ctrunc
    rw [hI, if_pos hfrac0]
  refine ⟨hI, hF, ?_, ?_⟩
  · rw [hF]
    exact Int.floor_nonneg.mpr hfrac0
  · rw [hF]
    have h2 : ⌊(division f s - (⌊division f s⌋ : ℚ)) * 1024⌋ < 1024 := by
      rw [Int.floor_lt]
      exact_mod_cast hfrac1
    omega

/-- Witness for `start_clock_divisor_truncation` at the DCF77 scenario
candidate. -/
theorem start_clock_divisor_truncation_witness :
    testDivI 77500 ⟨1, "osc", true, 19200000⟩
      = ⌊division 77500 ⟨1, "osc", true, 19200000⟩⌋ :=
  (start_clock_divisor_truncation.1 77500 ⟨1, "osc", true, 19200000⟩
    (by norm_num [src_suitable, division])).1

/-- Counterexample to C3 as frozen: at the concrete scenario (source
19 200 000 Hz, request 77 500 Hz) the code's fractional divisor is the
truncation 759, whereas `round((division − divI) × 1024)` is 760, and
the achieved frequency's absolute error exceeds 0.1 Hz (it is
≈ 0.227 Hz). -/
theorem start_clock_round_claim_counterexample :
    testDivF 77500 ⟨1, "osc", true, 19200000⟩ = 759 ∧
    lround_q ((division 77500 ⟨1, "osc", true, 19200000⟩
      - (testDivI 77500 ⟨1, "osc", true, 19200000⟩ : ℚ)) * 1024) = 760 ∧
    (759 : ℤ) ≠ 760 ∧
    ¬ candError 77500 ⟨1, "osc", true, 19200000⟩ ≤ 1 / 10 := by
  refine ⟨by norm_num [testDivF, testDivI, ctrunc, division],
    by norm_num [lround_q, testDivI, ctrunc, division], by norm_num, ?_⟩
  rw [show candError 77500 ⟨1, "osc", true, 19200000⟩ = 57500 / 253687 from
    by unfold candError resultFreq; norm_num [testDivI, testDivF, ctrunc, division]]
  norm_num

/-- C7: `get_periodic_schedule` clears the whole mask before parsing, so
the resulting mask is a pure function of the expression (re-applying the
same expression to any prior mask yields the identical result —
idempotence); each valid `START:LEN` entry marks exactly the `LEN`
minute indices `(lround(START*60) + i) % 1440`, `i < LEN`, wrapping past
minute 1439 back to 0; and the expression `"2:15;13.5:30"` enables
exactly minutes 120..134 and 810..839. -/
theorem get_periodic_schedule_spec :
    (∀ (prior prior' : Nat → Bool) (expr : String),
      get_periodic_schedule prior expr = get_periodic_schedule prior' expr) ∧
    (∀ (prior : Nat → Bool) (expr : String),
      get_periodic_schedule (get_periodic_schedule prior expr) expr
        = get_periodic_schedule prior expr) ∧
    (∀ (mask : Nat → Bool) (sh sm : String) (rest : List String) (h : ℚ) (len : Nat),
      sscanf_lf sh = some h → 0 ≤ h → h < 24 →
      sscanf_u16 sm = some len → len ≤ 1440 →
      (lround_q (h * 60)).toNat % 65536 < 1440 →
      ∀ m : Nat, apply_schedule_fields mask (sh :: sm :: rest) m
        = (mask m || decide (∃ i, i < len ∧
            m = ((lround_q (h * 60)).toNat % 65536 + i) % 1440))) ∧
    (∀ (prior : Nat → Bool) (m : Nat), m < 1440 →
      get_periodic_schedule prior "2:15;13.5:30" m
        = decide ((120 ≤ m ∧ m < 135) ∨ (810 ≤ m ∧ m < 840))) := by
  have hsplit : c_strtok ';' "2:15;13.5:30" = ["2:15", "13.5:30"] := by decide
  have hf1 : c_strtok ':' "2:15" = ["2", "15"] := by decide
  have hf2 : c_strtok ':' "13.5:30" = ["13.5", "30"] := by decide
  have hp1 : sscanf_lf "2" = some 2 := by
    have e : sscanf_lf "2" = some (1 * ((2 : ℕ) : ℚ)) := rfl
    rw [e]
    congr 1
    norm_num
  have hp2 : sscanf_lf "13.5" = some (27 / 2) := by
    have e : sscanf_lf "13.5"
        = some (1 * (((13 : ℕ) : ℚ) + (((5 : ℕ) : ℚ) + 0) / 10)) := rfl
    rw [e]
    congr 1
    norm_num
  have hu1 : sscanf_u16 "15" = some 15 := by decide
  have hu2 : sscanf_u16 "30" = some 30 := by decide
  have hlr1 : (lround_q ((2 : ℚ) * 60)).toNat % 65536 = 120 := by
    norm_num [lround_q]
    decide
  have hlr2 : (lround_q ((27 : ℚ) / 2 * 60)).toNat % 65536 = 810 := by
    norm_num [lround_q]
    decide
  have h120ok : (lround_q ((2 : ℚ) * 60)).toNat % 65536 < 1440 := by
    rw [hlr1]
    norm_num
  have h810ok : (lround_q ((27 : ℚ) / 2 * 60)).toNat % 65536 < 1440 := by
    rw [hlr2]
    norm_num
  refine ⟨fun prior prior' expr => rfl, fun prior expr => rfl,
    fun mask sh sm rest h len hsh h0 h24 hsm hlen hstart m =>
      apply_schedule_fields_spec mask sh sm rest h len hsh h0 h24 hsm hlen hstart m,
    ?_⟩
  intro prior m hm
  unfold get_periodic_schedule
  rw [hsplit, List.foldl_cons, List.foldl_cons, List.foldl_nil]
  unfold apply_schedule_entry
  rw [hf1, hf2]
  rw [apply_schedule_fields_spec _ "13.5" "30" [] (27 / 2) 30 hp2 (by norm_num)
    (by norm_num) hu2 (by norm_num) h810ok m]
  rw [apply_schedule_fields_spec _ "2" "15" [] 2 15 hp1 (by norm_num)
    (by norm_num) hu1 (by norm_num) h120ok m]
  rw [hlr1, hlr2]
  simp only [Bool.false_or]
  rw [← Bool.decide_or]
  refine decide_eq_decide.mpr ?_
  constructor
  · rintro (⟨i, hi, rfl⟩ | ⟨i, hi, rfl⟩)
    · have hmod : (120 + i) % 1440 = 120 + i := Nat.mod_eq_of_lt (by omega)
      left
      omega
    · have hmod : (810 + i) % 1440 = 810 + i := Nat.mod_eq_of_lt (by omega)
      right
      omega
  · rintro (⟨h1, h2⟩ | ⟨h1, h2⟩)
    · exact Or.inl ⟨m - 120, by omega, by rw [Nat.mod_eq_of_lt (by omega)]; omega⟩
    · exact Or.inr ⟨m - 810, by omega, by rw [Nat.mod_eq_of_lt (by omega)]; omega⟩

/-- Witness for `get_periodic_schedule_spec`: minute 121 is enabled by
the scenario expression. -/
theorem get_periodic_schedule_spec_witness :
    get_periodic_schedule (fun _ => true) "2:15;13.5:30" 121
      = decide ((120 ≤ 121 ∧ 121 < 135) ∨ (810 ≤ 121 ∧ 121 < 840)) :=
  get_periodic_schedule_spec.2.2.2 (fun _ => true) 121 (by norm_num)

end TimeSignal
